import Mathlib

/-!
Shallow embedding of the cinema management core of `src/main.py`
(Cine Cultural Barranquilla), covering the data model (Asiento, Teatro,
Pelicula, Funcion, Cliente, Tiquete), the Admin business logic
(cargar_funciones_desde_archivo, comprar_tiquetes,
_cargar_y_aplicar_reservas, generar_reporte_completo), and theorems about
the claims of the specification.

Modelling conventions:
- Python objects become Lean structures; in-place mutation becomes explicit
  state passing (a method that mutates returns the updated value).
  `copy.deepcopy` in `Funcion.__init__` is modelled as a value copy, which
  is exactly what a deep copy provides.
- `datetime` instants are modelled as a `Nat` number of minutes on a single
  global timeline; `timedelta(minutes=30)` is `+ 30`; `datetime.now()`
  becomes an explicit `ahora` argument.  The calendar date of an instant is
  `fecha / 1440` (minutes per day).
- Serialized timestamps (the `DD/MM/YYYY - HH:MM` strings of the stores)
  are modelled as decimal digit strings: `formatFecha` models `strftime`
  and `parseFecha` models `strptime`, with `none` modelling the
  `ValueError` raised on a malformed date.
- The two semicolon-separated stores are lists of records, each record a
  `List String` of fields (the output of `ControladorDeArchivos.leer`);
  appending a line becomes appending a record to the list.  File writes
  never fail in the model, so the `except` rollback path of
  `comprar_tiquetes` (src/main.py:372-376) is unreachable; exceptions that
  the code does raise are modelled with `Except`, and the error value
  carries the state left behind at raise time.
-/

namespace Cine

/-- Decimal digit character, models Python string formatting of one digit. -/
def digitChar (n : Nat) : Char := Char.ofNat (48 + n)

/-- Decimal representation of a natural number as a digit list
(most significant first), with explicit fuel so that it is structurally
recursive and kernel-reducible.  Models Python `str(n)` for `n : Nat`. -/
def natReprAux : Nat → Nat → List Char
  | 0, _ => []
  | fuel + 1, n =>
    if n < 10 then [digitChar n]
    else natReprAux fuel (n / 10) ++ [digitChar (n % 10)]

/-- Decimal representation of `n`, models Python `str(n)` / `f"{n}"`. -/
def natRepr (n : Nat) : List Char := natReprAux (n + 1) n

/-- Value of a digit list read in base 10 (left inverse of `natRepr`). -/
def valorDigitos (l : List Char) : Nat :=
  l.foldl (fun a c => a * 10 + (c.toNat - 48)) 0

/-- Whitespace test used by `strip`, models the characters removed by
Python `str.strip()` (restricted to the ASCII whitespace that can occur in
the stores). -/
def esBlanco (c : Char) : Bool :=
  c = ' ' || c = '\t' || c = '\n' || c = '\r'

/-- Models Python `str.strip()`: remove leading and trailing whitespace. -/
def strip (s : String) : String :=
  ⟨((s.data.dropWhile esBlanco).reverse.dropWhile esBlanco).reverse⟩

/-- Models `datetime.strptime(s, DATE_FORMAT_FILE)` under the convention
that timestamps serialize as decimal digit strings: a nonempty all-digit
string parses to its value, anything else models the `ValueError` branch. -/
def parseFecha (s : String) : Option Nat :=
  if s.data ≠ [] ∧ s.data.all Char.isDigit then some (valorDigitos s.data)
  else none

/-- Models `fecha.strftime(DATE_FORMAT_FILE)` (serialization of an instant). -/
def formatFecha (n : Nat) : String := ⟨natRepr n⟩

/-- Class `Asiento` (src/main.py:97-124): a single seat with id and
availability flag; `__init__` sets `disponible = True`. -/
structure Asiento where
  id : String
  disponible : Bool
deriving DecidableEq

/-- Method `Asiento.está_disponible` (src/main.py:104-106); the accent is dropped from the Lean name. -/
def Asiento.esta_disponible (a : Asiento) : Bool := a.disponible

/-- Method `Asiento.reservar` (src/main.py:108-112): marks the seat
occupied; on an already occupied seat it only logs a warning, the state
change is the same. -/
def Asiento.reservar (a : Asiento) : Asiento := { a with disponible := false }

/-- Method `Asiento.desreservar` (src/main.py:114-116). -/
def Asiento.desreservar (a : Asiento) : Asiento := { a with disponible := true }

/-- Row letters `"ABCDEFGHIJ"` of `Teatro._generar_asientos`
(src/main.py:137). -/
def FILAS : List Char := ['A', 'B', 'C', 'D', 'E', 'F', 'G', 'H', 'I', 'J']

/-- Characters of the literal `"Extra"` used for filler seat ids
(src/main.py:154). -/
def EXTRA : List Char := ['E', 'x', 't', 'r', 'a']

/-- Method `Teatro._generar_asientos` (src/main.py:133-155).  The nested
loop appends grid seats `f"{fila}{num}"` row by row while `count <
cantidad` (equivalently: it takes the first `cantidad` elements of the
full grid of `len(filas) * asientos_por_fila` seats), and the trailing
`while` pads with `Asiento(f"Extra{len+1}")` until the list has `cantidad`
elements.  `cantidad <= 0` returns the empty list. -/
def _generar_asientos (cantidad : Nat) : List Asiento :=
  if cantidad = 0 then []
  else
    let asientos_por_fila := max 1 (cantidad / FILAS.length)
    let cuadricula := FILAS.flatMap fun fila =>
      (List.range' 1 asientos_por_fila).map fun num =>
        Asiento.mk ⟨fila :: natRepr num⟩ true
    let generados := cuadricula.take cantidad
    generados ++ (List.range' generados.length (cantidad - generados.length)).map
      fun k => Asiento.mk ⟨EXTRA ++ natRepr (k + 1)⟩ true

/-- Class `Teatro` (src/main.py:126-169): a room template with a name and
a generated seat list. -/
structure Teatro where
  nombre : String
  asientos : List Asiento
deriving DecidableEq

/-- Constructor `Teatro.__init__` (src/main.py:128-131). -/
def Teatro.nuevo (nombre : String) (cantidad_asientos : Nat) : Teatro :=
  { nombre := nombre, asientos := _generar_asientos cantidad_asientos }

/-- First seat of the list whose id matches, the lookup loop shared by
`Teatro.obtener_asiento_por_id` (src/main.py:157-161) and
`Funcion.obtener_asiento_por_id` (src/main.py:207-211). -/
def buscarAsiento : List Asiento → String → Option Asiento
  | [], _ => none
  | a :: rest, id_a => if a.id = id_a then some a else buscarAsiento rest id_a

/-- Class `Pelicula` (src/main.py:171-184). -/
structure Pelicula where
  nombre : String
  genero : String
deriving DecidableEq

/-- Class `Funcion` (src/main.py:186-219): a screening with its own
independent seat state. -/
structure Funcion where
  pelicula : Pelicula
  teatro_funcion : Teatro
  fecha : Nat
  fechaLimite : Nat
deriving DecidableEq

/-- Constructor `Funcion.__init__` (src/main.py:188-193): stores a
`copy.deepcopy` of the template (here a value copy) and sets
`fechaLimite = fecha + timedelta(minutes=30)`. -/
def Funcion.nueva (fecha : Nat) (pelicula : Pelicula) (teatro_plantilla : Teatro) : Funcion :=
  { pelicula := pelicula, teatro_funcion := teatro_plantilla,
    fecha := fecha, fechaLimite := fecha + 30 }

/-- Method `Funcion.fechaLimite_pasada` (src/main.py:199-201):
`datetime.now() > self.fechaLimite`, with the current instant explicit. -/
def Funcion.fechaLimite_pasada (f : Funcion) (ahora : Nat) : Bool :=
  decide (f.fechaLimite < ahora)

/-- Method `Funcion.obtener_asiento_por_id` (src/main.py:207-211). -/
def Funcion.obtener_asiento_por_id (f : Funcion) (id_a : String) : Option Asiento :=
  buscarAsiento f.teatro_funcion.asientos id_a

/-- Method `Funcion.esta_disponible_en_fecha` (src/main.py:213-215). -/
def Funcion.esta_disponible_en_fecha (f : Funcion) (tiempoDeReferencia : Nat) : Bool :=
  decide (tiempoDeReferencia ≤ f.fecha)

/-- Class `Cliente` (src/main.py:221-230). -/
structure Cliente where
  nombre : String
  id : String
deriving DecidableEq

/-- Identifying fields of the `Funcion` a `Tiquete` references (a
`Tiquete` in Python holds an object reference; these are the immutable
fields that identify it, the same triple `guardar_tiquete_en_archivo`
persists). -/
structure FuncionKey where
  fecha : Nat
  sala : String
  pelicula : String
deriving DecidableEq

/-- Class `Tiquete` (src/main.py:232-253). -/
structure Tiquete where
  precio : Nat
  funcion : FuncionKey
  cliente : Cliente
  asiento : Asiento
deriving DecidableEq

/-- Constant `DEFAULT_SEATS_PER_THEATER` (src/main.py:54). -/
def DEFAULT_SEATS_PER_THEATER : Nat := 80

/-- Constant `DEFAULT_THEATER_NAMES` (src/main.py:55). -/
def DEFAULT_THEATER_NAMES : List String := ["Sala 1", "Sala 2", "Sala 3"]

/-- Constant `PRECIO_TIQUETE` (src/main.py:65). -/
def PRECIO_TIQUETE : Nat := 15000

/-- Class `Admin` (src/main.py:284-295): the in-memory state of the
business logic.  Python dictionaries become association lists in insertion
order; the file controllers are externalized (store contents are passed to
and returned from the methods that touch them). -/
structure Admin where
  nombre : String
  clientes : List Cliente
  teatros : List (String × Teatro)
  funciones_diarias : List (String × List Funcion)
  tiquetes : List (String × List Tiquete)
deriving DecidableEq

/-- Constructor `Admin.__init__` (src/main.py:286-295). -/
def Admin.nuevo (nombre_cine : String) : Admin :=
  { nombre := nombre_cine, clientes := [],
    teatros := DEFAULT_THEATER_NAMES.map fun n =>
      (n, Teatro.nuevo n DEFAULT_SEATS_PER_THEATER),
    funciones_diarias := DEFAULT_THEATER_NAMES.map fun n => (n, []),
    tiquetes := [] }

/-- Dictionary read `d[k]` / `d.get(k)`: first binding of the key. -/
def buscarClave {α : Type} : List (String × α) → String → Option α
  | [], _ => none
  | (k, v) :: rest, s => if k = s then some v else buscarClave rest s

/-- Dictionary in-place update of an existing key: rewrite the first
binding of the key with `g`. -/
def actualizarClave {α : Type} : List (String × α) → String → (α → α) → List (String × α)
  | [], _, _ => []
  | (k, v) :: rest, s, g =>
    if k = s then (k, g v) :: rest else (k, v) :: actualizarClave rest s g

/-- In-place update of the `i`-th element of a list. -/
def modificar {α : Type} : List α → Nat → (α → α) → List α
  | [], _, _ => []
  | a :: l, 0, g => g a :: l
  | a :: l, n + 1, g => a :: modificar l n g

/-- Body of the record loop of `Admin.cargar_funciones_desde_archivo`
(src/main.py:322-341), operating on the state (room dictionary, per-room
counter, loaded count).  A record of fewer than 4 fields is skipped; its
fields are stripped; the date is parsed (failure: `ValueError`, caught,
skip); the room template is resolved (unknown room: `ValueError`, caught,
skip); the per-room counter is read (a missing key would be a `KeyError`,
caught, skip) and the cap of 2 checked; otherwise the `Funcion` is built
from a deep copy of the template and appended to the room's list (again a
missing dictionary key would be a caught `KeyError`). -/
def paso_cargar (teatros : List (String × Teatro))
    (st : List (String × List Funcion) × List (String × Nat) × Nat)
    (reg : List String) : List (String × List Funcion) × List (String × Nat) × Nat :=
  match reg with
  | f_str :: p_nom :: p_gen :: s_nom :: _ =>
    match parseFecha (strip f_str) with
    | none => st
    | some fecha =>
      match buscarClave teatros (strip s_nom) with
      | none => st
      | some teatro_p =>
        match buscarClave st.2.1 (strip s_nom) with
        | none => st
        | some c =>
          if 2 ≤ c then st
          else
            match buscarClave st.1 (strip s_nom) with
            | none => st
            | some _ =>
              (actualizarClave st.1 (strip s_nom)
                 (fun fs => fs ++ [Funcion.nueva fecha ⟨strip p_nom, strip p_gen⟩ teatro_p]),
               actualizarClave st.2.1 (strip s_nom) (fun c => c + 1),
               st.2.2 + 1)
  | _ => st

/-- Method `Admin.cargar_funciones_desde_archivo` (src/main.py:311-344),
with the parsed record list of `movies.txt` passed in.  An empty record
list returns 0 immediately (before the clearing step, src/main.py:316).
Otherwise all room lists are cleared, a per-room counter is initialised
for the default rooms, and every record is processed by `paso_cargar`.
Returns the new state and the count of loaded records. -/
def Admin.cargar_funciones_desde_archivo (admin : Admin) (registros : List (List String)) :
    Admin × Nat :=
  if registros.isEmpty then (admin, 0)
  else
    ({ admin with funciones_diarias :=
        (registros.foldl (paso_cargar admin.teatros)
          (admin.funciones_diarias.map fun p => (p.1, ([] : List Funcion)),
           DEFAULT_THEATER_NAMES.map fun n => (n, (0 : Nat)), 0)).1 },
     (registros.foldl (paso_cargar admin.teatros)
        (admin.funciones_diarias.map fun p => (p.1, ([] : List Funcion)),
         DEFAULT_THEATER_NAMES.map fun n => (n, (0 : Nat)), 0)).2.2)

/-- In-place update of the first seat of the list whose id matches
(in Python, `obtener_asiento_por_id` returns a reference to that seat and
the caller mutates it). -/
def actualizarPrimero : List Asiento → String → (Asiento → Asiento) → List Asiento
  | [], _, _ => []
  | a :: rest, id_a, g =>
    if a.id = id_a then g a :: rest else a :: actualizarPrimero rest id_a g

/-- Effect on a `Funcion` of `asiento.reservar()` where `asiento` is the
seat `funcion.obtener_asiento_por_id(id_a)` returned (src/main.py:363). -/
def reservarAsientoEnFuncion (f : Funcion) (id_a : String) : Funcion :=
  { f with teatro_funcion :=
      { f.teatro_funcion with
        asientos := actualizarPrimero f.teatro_funcion.asientos id_a Asiento.reservar } }

/-- Effect on a `Funcion` of `asiento.desreservar()` on the seat found by
id (the rollback path, src/main.py:375). -/
def liberarAsientoEnFuncion (f : Funcion) (id_a : String) : Funcion :=
  { f with teatro_funcion :=
      { f.teatro_funcion with
        asientos := actualizarPrimero f.teatro_funcion.asientos id_a Asiento.desreservar } }

/-- Validation loop of `Admin.comprar_tiquetes` (src/main.py:355-359):
look up every requested id in the Showing's own inventory and check it is
available, collecting the seats; the first failure raises `ValueError`.
No state is modified by this loop. -/
def validar_asientos (funcion : Funcion) : List String → Except String (List Asiento)
  | [] => .ok []
  | id_a :: rest =>
    match funcion.obtener_asiento_por_id id_a with
    | none => .error ("Asiento ID '" ++ id_a ++ "' no existe.")
    | some asiento =>
      if asiento.esta_disponible then
        match validar_asientos funcion rest with
        | .error e => .error e
        | .ok l => .ok (asiento :: l)
      else .error ("Asiento " ++ id_a ++ " no disponible.")

/-- Dictionary update of `Admin.comprar_tiquetes` lines 367-368: create
the customer's list if absent, then append the ticket. -/
def agregarTiquete (tq : List (String × List Tiquete)) (id_cliente : String) (t : Tiquete) :
    List (String × List Tiquete) :=
  match buscarClave tq id_cliente with
  | none => tq ++ [(id_cliente, [t])]
  | some _ => actualizarClave tq id_cliente fun l => l ++ [t]

/-- Method `Admin.guardar_tiquete_en_archivo` (src/main.py:423-434): the
record appended to `tickets.txt` for one ticket. -/
def registroDeTiquete (t : Tiquete) : List String :=
  [formatFecha t.funcion.fecha, t.funcion.sala, t.funcion.pelicula, t.asiento.id]

/-- Result state of a successful `Admin.comprar_tiquetes` call: the
mutated `Funcion`, the returned ticket list, the updated in-memory ticket
dictionary, and the updated `tickets.txt` contents. -/
structure CompraResultado where
  funcion : Funcion
  tiquetes_comprados : List Tiquete
  tiquetes : List (String × List Tiquete)
  archivo_tiquetes : List (List String)
deriving DecidableEq

/-- State left behind by a `ValueError` raised in
`Admin.comprar_tiquetes`: the message and the (unchanged, since
validation precedes all mutation) showing, ticket dictionary and file. -/
structure CompraError where
  mensaje : String
  funcion : Funcion
  tiquetes : List (String × List Tiquete)
  archivo_tiquetes : List (List String)
deriving DecidableEq

/-- Reservation loop of `Admin.comprar_tiquetes` (src/main.py:361-371):
for each validated seat, reserve it in the showing, build the `Tiquete`
(from the post-reservation seat, as Python's ticket holds a reference to
the now-occupied seat), record it in the customer's list and append the
persistence record.  In the model no step of this loop can throw, so the
`except` rollback (src/main.py:372-376) is unreachable. -/
def reservar_y_emitir (cliente : Cliente) (precio_unitario : Nat) :
    List Asiento → Funcion → List Tiquete → List (String × List Tiquete) →
    List (List String) → CompraResultado
  | [], f, comprados, tq, arch => ⟨f, comprados, tq, arch⟩
  | a :: rest, f, comprados, tq, arch =>
    let f2 := reservarAsientoEnFuncion f a.id
    let t : Tiquete :=
      ⟨precio_unitario, ⟨f2.fecha, f2.teatro_funcion.nombre, f2.pelicula.nombre⟩,
       cliente, a.reservar⟩
    reservar_y_emitir cliente precio_unitario rest f2 (comprados ++ [t])
      (agregarTiquete tq cliente.id t) (arch ++ [registroDeTiquete t])

/-- Method `Admin.comprar_tiquetes` (src/main.py:347-376).  Reject an
empty selection, pre-validate every requested seat against the showing's
own inventory, then reserve and emit tickets.  The error value carries
the state at raise time; both raises happen before any mutation. -/
def comprar_tiquetes (funcion : Funcion) (cliente : Cliente) (ids_asientos : List String)
    (precio_unitario : Nat) (tiquetes : List (String × List Tiquete))
    (archivo_tiquetes : List (List String)) : Except CompraError CompraResultado :=
  if ids_asientos.isEmpty then
    .error ⟨"Seleccione al menos un asiento.", funcion, tiquetes, archivo_tiquetes⟩
  else
    match validar_asientos funcion ids_asientos with
    | .error e => .error ⟨e, funcion, tiquetes, archivo_tiquetes⟩
    | .ok asientos_a_reservar =>
      .ok (reservar_y_emitir cliente precio_unitario asientos_a_reservar funcion []
        tiquetes archivo_tiquetes)

/-- Guard of `TheaterGUI._confirm_purchase` (src/main.py:1112): a purchase
is started only when a showing is selected, the selection is nonempty and
the deadline has not passed. -/
def _confirm_purchase_procede (funcion_seleccionada : Option Funcion)
    (asientos_seleccionados : List String) (ahora : Nat) : Bool :=
  match funcion_seleccionada with
  | none => false
  | some f => !asientos_seleccionados.isEmpty && !(f.fechaLimite_pasada ahora)

/-- Composite key `(func.fecha, func.teatro_funcion.nombre,
func.pelicula.nombre)` of `Admin._cargar_y_aplicar_reservas`
(src/main.py:447). -/
def claveDeFuncion (f : Funcion) : Nat × String × String :=
  (f.fecha, f.teatro_funcion.nombre, f.pelicula.nombre)

/-- Inner loop of the map construction of `_cargar_y_aplicar_reservas`
(src/main.py:445-448): bindings for the showings of one room, with their
positions.  `si`/`fi` address a showing as Python's object references do
(positions never change during reconciliation). -/
def mapaFunciones (si : Nat) : List Funcion → Nat → List ((Nat × String × String) × Nat × Nat)
  | [], _ => []
  | f :: fs, fi => (claveDeFuncion f, si, fi) :: mapaFunciones si fs (fi + 1)

/-- Map construction of `_cargar_y_aplicar_reservas` (src/main.py:442-448). -/
def construirMapa : List (String × List Funcion) → Nat → List ((Nat × String × String) × Nat × Nat)
  | [], _ => []
  | (_, fs) :: rest, si => mapaFunciones si fs 0 ++ construirMapa rest (si + 1)

/-- Dictionary lookup `funciones_map.get(key)` where insertion order makes
later bindings overwrite earlier ones: the last matching binding wins. -/
def buscarMapa : List ((Nat × String × String) × Nat × Nat) → (Nat × String × String) →
    Option (Nat × Nat)
  | [], _ => none
  | (k, v) :: rest, c =>
    match buscarMapa rest c with
    | some r => some r
    | none => if k = c then some v else none

/-- The showing stored at position `(si, fi)` of the room dictionary. -/
def funcionEn (fd : List (String × List Funcion)) (si fi : Nat) : Option Funcion :=
  match fd[si]? with
  | none => none
  | some p => p.2[fi]?

/-- In-place update of the showing at position `(si, fi)`. -/
def modificarFuncion (fd : List (String × List Funcion)) (si fi : Nat)
    (g : Funcion → Funcion) : List (String × List Funcion) :=
  modificar fd si fun p => (p.1, modificar p.2 fi g)

/-- Body of the record loop of `Admin._cargar_y_aplicar_reservas`
(src/main.py:452-469): records of fewer than 4 fields are skipped; the
date is parsed (failure: skip); the showing is resolved through the
prebuilt map (absent: skip); the seat is looked up in that showing
(absent or already occupied: skip); otherwise the seat is reserved.
Returns the updated state and 1 when a reservation was applied. -/
def aplicarRegistro (fd : List (String × List Funcion))
    (mapa : List ((Nat × String × String) × Nat × Nat)) (record : List String) :
    List (String × List Funcion) × Nat :=
  match record with
  | f_str :: nombre_sala :: nombre_peli :: asiento_id :: _ =>
    match parseFecha (strip f_str) with
    | none => (fd, 0)
    | some fecha_dt =>
      match buscarMapa mapa (fecha_dt, strip nombre_sala, strip nombre_peli) with
      | none => (fd, 0)
      | some (si, fi) =>
        match funcionEn fd si fi with
        | none => (fd, 0)
        | some funcion_encontrada =>
          match funcion_encontrada.obtener_asiento_por_id (strip asiento_id) with
          | none => (fd, 0)
          | some asiento =>
            if asiento.esta_disponible then
              (modificarFuncion fd si fi
                 (fun f => reservarAsientoEnFuncion f (strip asiento_id)), 1)
            else (fd, 0)
  | _ => (fd, 0)

/-- Method `Admin._cargar_y_aplicar_reservas` (src/main.py:437-471), with
the parsed `tickets.txt` records passed in: build the composite-key map
once over the loaded showings, then apply every record.  Returns the
updated room dictionary and the number of reservations applied. -/
def _cargar_y_aplicar_reservas (fd : List (String × List Funcion))
    (reservas_guardadas : List (List String)) : List (String × List Funcion) × Nat :=
  reservas_guardadas.foldl
    (fun acc record =>
      ((aplicarRegistro acc.1 (construirMapa fd 0) record).1,
       acc.2 + (aplicarRegistro acc.1 (construirMapa fd 0) record).2))
    (fd, 0)

/-- Occupied-seat count of one showing, the inner loop of
`Admin.generar_reporte_completo` (src/main.py:492-495). -/
def contarOcupados (f : Funcion) : Nat :=
  (f.teatro_funcion.asientos.filter fun a => !a.esta_disponible).length

/-- One row of the report of `Admin.generar_reporte_completo`
(src/main.py:501-508). -/
structure Reporte where
  fecha : Nat
  sala : String
  pelicula : String
  tiquetes_vendidos : Nat
  ganancias_totales : Nat
deriving DecidableEq

/-- Report row for one showing (src/main.py:491-508): sold tickets are the
occupied-seat count and revenue is that count times `PRECIO_TIQUETE`. -/
def reporteDe (f : Funcion) : Reporte :=
  { fecha := f.fecha, sala := f.teatro_funcion.nombre, pelicula := f.pelicula.nombre,
    tiquetes_vendidos := contarOcupados f,
    ganancias_totales := contarOcupados f * PRECIO_TIQUETE }

/-- Sort key order `(item.fecha, item.sala)` of the report
(src/main.py:511): lexicographic on timestamp then room name. -/
def ordenReporte (r₁ r₂ : Reporte) : Prop :=
  r₁.fecha < r₂.fecha ∨ (r₁.fecha = r₂.fecha ∧ r₁.sala ≤ r₂.sala)

instance : DecidableRel ordenReporte := fun r₁ r₂ =>
  inferInstanceAs (Decidable (r₁.fecha < r₂.fecha ∨ (r₁.fecha = r₂.fecha ∧ r₁.sala ≤ r₂.sala)))

instance : IsTotal Reporte ordenReporte where
  total r₁ r₂ := by
    unfold ordenReporte
    rcases Nat.lt_trichotomy r₁.fecha r₂.fecha with h | h | h
    · exact Or.inl (Or.inl h)
    · rcases le_total r₁.sala r₂.sala with hs | hs
      · exact Or.inl (Or.inr ⟨h, hs⟩)
      · exact Or.inr (Or.inr ⟨h.symm, hs⟩)
    · exact Or.inr (Or.inl h)

instance : IsTrans Reporte ordenReporte where
  trans r₁ r₂ r₃ h₁ h₂ := by
    unfold ordenReporte at h₁ h₂ ⊢
    rcases h₁ with h₁ | ⟨e₁, s₁⟩
    · rcases h₂ with h₂ | ⟨e₂, _⟩
      · exact Or.inl (h₁.trans h₂)
      · exact Or.inl (e₂ ▸ h₁)
    · rcases h₂ with h₂ | ⟨e₂, s₂⟩
      · exact Or.inl (e₁ ▸ h₂)
      · exact Or.inr ⟨e₁.trans e₂, s₁.trans s₂⟩

/-- Flat list of all loaded showings in dictionary iteration order, the
nested loop of `generar_reporte_completo` (src/main.py:488-489). -/
def todasLasFunciones (fd : List (String × List Funcion)) : List Funcion :=
  (fd.map Prod.snd).flatten

/-- Method `Admin.generar_reporte_completo` (src/main.py:479-514): one row
per loaded showing, sorted by `(fecha, sala)` (Python's stable `sort`,
modelled by a stable insertion sort under the same order). -/
def generar_reporte_completo (admin : Admin) : List Reporte :=
  List.insertionSort ordenReporte
    ((todasLasFunciones admin.funciones_diarias).map reporteDe)

/-- Effect, at the level of the whole `Admin` state, of reserving one seat
of the showing stored at position `(si, fi)` (what a successful purchase
of that seat does to the shared state, src/main.py:363). -/
def reservar_asiento_de_funcion (admin : Admin) (si fi : Nat) (id_a : String) : Admin :=
  { admin with funciones_diarias :=
      modificarFuncion admin.funciones_diarias si fi fun f => reservarAsientoEnFuncion f id_a }

/-- Effect, at the level of the whole `Admin` state, of releasing one seat
of the showing stored at position `(si, fi)` (src/main.py:375). -/
def desreservar_asiento_de_funcion (admin : Admin) (si fi : Nat) (id_a : String) : Admin :=
  { admin with funciones_diarias :=
      modificarFuncion admin.funciones_diarias si fi fun f => liberarAsientoEnFuncion f id_a }

/-- Concrete five-seat showing (seats `A1` … `E1`, all available, start
instant 0, deadline 30) used to evaluate the theorems on explicit inputs. -/
def funcionEjemplo : Funcion :=
  Funcion.nueva 0 ⟨"Peli", "Drama"⟩ (Teatro.nuevo "Sala 1" 5)

/-- Concrete customer used to evaluate the theorems on explicit inputs. -/
def clienteEjemplo : Cliente := ⟨"Ana", "1234567890"⟩

/-- Concrete freshly initialised Admin state (as built by `main`,
src/main.py:1174) used to evaluate the theorems on explicit inputs. -/
def adminEjemplo : Admin := Admin.nuevo "Cine Cultural Barranquilla"

/-! ### Lemmas about decimal representations -/

theorem natReprAux_eq_of_lt :
    ∀ (n fuel₁ fuel₂ : Nat), n < fuel₁ → n < fuel₂ →
      natReprAux fuel₁ n = natReprAux fuel₂ n := by
  intro n
  induction n using Nat.strong_induction_on with
  | _ n ih =>
    intro fuel₁ fuel₂ h₁ h₂
    match fuel₁, fuel₂ with
    | f + 1, g + 1 =>
      simp only [natReprAux]
      by_cases h10 : n < 10
      · simp [h10]
      · simp only [h10, if_false]
        have hdiv : n / 10 < n := Nat.div_lt_self (by omega) (by omega)
        rw [ih (n / 10) hdiv f g (by omega) (by omega)]

theorem natRepr_eq (n : Nat) :
    natRepr n = if n < 10 then [digitChar n]
                else natRepr (n / 10) ++ [digitChar (n % 10)] := by
  have hstep : natRepr n
      = if n < 10 then [digitChar n] else natReprAux n (n / 10) ++ [digitChar (n % 10)] := rfl
  rw [hstep]
  by_cases h10 : n < 10
  · simp [h10]
  · simp only [h10, if_false]
    have hdiv : n / 10 < n := Nat.div_lt_self (by omega) (by omega)
    rw [natReprAux_eq_of_lt (n / 10) n (n / 10 + 1) (by omega) (by omega)]
    rfl

theorem digitChar_toNat (n : Nat) (h : n < 10) : (digitChar n).toNat = 48 + n := by
  interval_cases n <;> decide

theorem isDigit_digitChar (n : Nat) (h : n < 10) : (digitChar n).isDigit = true := by
  interval_cases n <;> decide

theorem valorDigitos_natRepr (n : Nat) : valorDigitos (natRepr n) = n := by
  induction n using Nat.strong_induction_on with
  | _ n ih =>
    rw [natRepr_eq]
    by_cases h : n < 10
    · simp only [h, if_true]
      show List.foldl _ 0 [digitChar n] = n
      simp only [List.foldl]
      rw [digitChar_toNat n h]
      omega
    · simp only [h, if_false]
      unfold valorDigitos
      rw [List.foldl_append]
      have h1 := ih (n / 10) (Nat.div_lt_self (by omega) (by omega))
      unfold valorDigitos at h1
      rw [h1]
      show n / 10 * 10 + ((digitChar (n % 10)).toNat - 48) = n
      rw [digitChar_toNat _ (Nat.mod_lt _ (by omega))]
      omega

theorem natRepr_injective : Function.Injective natRepr := by
  intro m n h
  have h2 := congrArg valorDigitos h
  rwa [valorDigitos_natRepr, valorDigitos_natRepr] at h2

theorem isDigit_of_mem_natRepr {n : Nat} :
    ∀ {c : Char}, c ∈ natRepr n → c.isDigit = true := by
  induction n using Nat.strong_induction_on with
  | _ n ih =>
    intro c h
    rw [natRepr_eq] at h
    by_cases h10 : n < 10
    · simp only [h10, if_true, List.mem_singleton] at h
      exact h ▸ isDigit_digitChar n h10
    · simp only [h10, if_false, List.mem_append, List.mem_singleton] at h
      rcases h with h | h
      · exact ih (n / 10) (Nat.div_lt_self (by omega) (by omega)) h
      · exact h ▸ isDigit_digitChar _ (Nat.mod_lt _ (by omega))

/-! ### Claim C8: freshly generated inventories -/

theorem nodup_ids_cuadricula (per : Nat) :
    ((FILAS.flatMap fun fila =>
        (List.range' 1 per).map fun num =>
          Asiento.mk ⟨fila :: natRepr num⟩ true).map Asiento.id).Nodup := by
  rw [List.map_flatMap]
  rw [List.nodup_flatMap]
  constructor
  · intro fila _
    rw [List.map_map]
    refine List.Nodup.map ?_ (List.nodup_range' 1 per)
    intro a b hab
    simp only [Function.comp] at hab
    have : (fila :: natRepr a) = (fila :: natRepr b) := congrArg String.data hab
    exact natRepr_injective (List.cons_injective this)
  · have hnd : FILAS.Nodup := by decide
    refine hnd.pairwise_of_forall_ne ?_
    intro f₁ _ f₂ _ hne x h₁ h₂
    simp only [Function.onFun, List.map_map, List.mem_map, Function.comp] at h₁ h₂
    obtain ⟨a, _, ha⟩ := h₁
    obtain ⟨b, _, hb⟩ := h₂
    apply hne
    have hdata : (f₁ :: natRepr a) = (f₂ :: natRepr b) :=
      congrArg String.data (ha.trans hb.symm)
    injection hdata

/-- C8: for every positive target count, a freshly generated seat
inventory deterministically holds exactly that many seats, all initially
available, with pairwise-distinct ids — row letters exhausted
left-to-right, and synthetic `Extra` filler ids for the remainder when
the count does not divide evenly across the rows. -/
theorem c8_main (cantidad : Nat) (h : 0 < cantidad) :
    (_generar_asientos cantidad).length = cantidad ∧
    (∀ a ∈ _generar_asientos cantidad, a.esta_disponible = true) ∧
    ((_generar_asientos cantidad).map Asiento.id).Nodup := by
  have hz : cantidad ≠ 0 := Nat.pos_iff_ne_zero.mp h
  unfold _generar_asientos
  simp only [hz, if_false]
  set per := max 1 (cantidad / FILAS.length) with hper
  set cuadricula := FILAS.flatMap fun fila =>
    (List.range' 1 per).map fun num => Asiento.mk ⟨fila :: natRepr num⟩ true with hcuad
  set generados := cuadricula.take cantidad with hgen
  refine ⟨?_, ?_, ?_⟩
  · rw [List.length_append, List.length_map, List.length_range']
    have hle : generados.length ≤ cantidad := by
      rw [hgen, List.length_take]
      omega
    omega
  · intro a ha
    rw [List.mem_append] at ha
    rcases ha with ha | ha
    · have := List.mem_of_mem_take ha
      rw [hcuad, List.mem_flatMap] at this
      obtain ⟨fila, _, hmem⟩ := this
      rw [List.mem_map] at hmem
      obtain ⟨num, _, rfl⟩ := hmem
      rfl
    · rw [List.mem_map] at ha
      obtain ⟨k, _, rfl⟩ := ha
      rfl
  · rw [List.map_append, List.nodup_append]
    refine ⟨?_, ?_, ?_⟩
    · rw [hgen, List.map_take]
      exact (List.take_sublist _ _).nodup (nodup_ids_cuadricula per)
    · rw [List.map_map]
      refine List.Nodup.map ?_ (List.nodup_range' _ _)
      intro a b hab
      simp only [Function.comp] at hab
      have hd : EXTRA ++ natRepr (a + 1) = EXTRA ++ natRepr (b + 1) :=
        congrArg String.data hab
      have := natRepr_injective (List.append_cancel_left hd)
      omega
    · intro x hx hx2
      rw [hgen, List.map_take] at hx
      have hx := List.mem_of_mem_take hx
      rw [hcuad, List.map_flatMap, List.mem_flatMap] at hx
      obtain ⟨fila, _, hmem⟩ := hx
      simp only [List.map_map, List.mem_map, Function.comp] at hmem
      obtain ⟨num, _, hid⟩ := hmem
      simp only [List.map_map, List.mem_map, Function.comp] at hx2
      obtain ⟨k, _, hid2⟩ := hx2
      have hdata : (fila :: natRepr num) = EXTRA ++ natRepr (k + 1) :=
        congrArg String.data (hid.trans hid2.symm)
      have hcons : natRepr num = ['x', 't', 'r', 'a'] ++ natRepr (k + 1) := by
        have h2 : (fila :: natRepr num)
            = 'E' :: (['x', 't', 'r', 'a'] ++ natRepr (k + 1)) := hdata
        injection h2
      have hx' : 'x' ∈ natRepr num := by
        rw [hcons]
        simp
      have := isDigit_of_mem_natRepr hx'
      simp at this

/-- Witness for C8 at the concrete count 15 (10 grid seats `A1` … `J1`
plus 5 filler seats `Extra11` … `Extra15`). -/
theorem c8_main_witness :
    (_generar_asientos 15).length = 15 ∧
    (∀ a ∈ _generar_asientos 15, a.esta_disponible = true) ∧
    ((_generar_asientos 15).map Asiento.id).Nodup :=
  c8_main 15 (by decide)

/-! ### Lemmas about seat lookup and in-place seat update -/

theorem buscarAsiento_id {l : List Asiento} {i : String} {a : Asiento}
    (h : buscarAsiento l i = some a) : a.id = i := by
  induction l with
  | nil => simp [buscarAsiento] at h
  | cons b rest ih =>
    unfold buscarAsiento at h
    by_cases hb : b.id = i
    · simp only [hb, if_true] at h
      cases h
      exact hb
    · simp only [hb, if_false] at h
      exact ih h

theorem actualizarPrimero_length (l : List Asiento) (i : String) (g : Asiento → Asiento) :
    (actualizarPrimero l i g).length = l.length := by
  induction l with
  | nil => rfl
  | cons a rest ih =>
    unfold actualizarPrimero
    by_cases ha : a.id = i <;> simp [ha, ih]

theorem actualizarPrimero_ids (l : List Asiento) (i : String) (g : Asiento → Asiento)
    (hg : ∀ a, (g a).id = a.id) :
    (actualizarPrimero l i g).map Asiento.id = l.map Asiento.id := by
  induction l with
  | nil => rfl
  | cons a rest ih =>
    unfold actualizarPrimero
    by_cases ha : a.id = i <;> simp [ha, ih, hg]

theorem actualizarPrimero_getElem_of_ne (l : List Asiento) (i : String) (g : Asiento → Asiento)
    (j : Nat) (a : Asiento) (hj : l[j]? = some a) (hne : a.id ≠ i) :
    (actualizarPrimero l i g)[j]? = some a := by
  induction l generalizing j with
  | nil => simp at hj
  | cons b rest ih =>
    unfold actualizarPrimero
    by_cases hb : b.id = i
    · simp only [hb, if_true]
      match j with
      | 0 =>
        rw [List.getElem?_cons_zero] at hj
        cases hj
        exact absurd hb hne
      | j + 1 =>
        rw [List.getElem?_cons_succ] at hj ⊢
        exact hj
    · simp only [hb, if_false]
      match j with
      | 0 =>
        rw [List.getElem?_cons_zero] at hj ⊢
        exact hj
      | j + 1 =>
        rw [List.getElem?_cons_succ] at hj ⊢
        exact ih j hj

theorem actualizarPrimero_getElem_or (l : List Asiento) (i : String) (g : Asiento → Asiento)
    (j : Nat) :
    (actualizarPrimero l i g)[j]? = l[j]? ∨
      ∃ a, l[j]? = some a ∧ (actualizarPrimero l i g)[j]? = some (g a) := by
  induction l generalizing j with
  | nil => left; rfl
  | cons b rest ih =>
    unfold actualizarPrimero
    by_cases hb : b.id = i
    · simp only [hb, if_true]
      match j with
      | 0 => right; exact ⟨b, List.getElem?_cons_zero, List.getElem?_cons_zero⟩
      | j + 1 => left; simp [List.getElem?_cons_succ]
    · simp only [hb, if_false]
      match j with
      | 0 => left; simp [List.getElem?_cons_zero]
      | j + 1 =>
        rw [List.getElem?_cons_succ, List.getElem?_cons_succ]
        exact ih j

theorem buscarAsiento_actualizarPrimero_self (l : List Asiento) (i : String)
    (g : Asiento → Asiento) (hg : ∀ a, (g a).id = a.id) :
    buscarAsiento (actualizarPrimero l i g) i = (buscarAsiento l i).map g := by
  induction l with
  | nil => rfl
  | cons a rest ih =>
    show buscarAsiento (actualizarPrimero (a :: rest) i g) i = _
    unfold actualizarPrimero
    by_cases ha : a.id = i
    · simp only [ha, if_true]
      simp [buscarAsiento, ha, hg]
    · simp only [ha, if_false]
      simp only [buscarAsiento, ha, if_false]
      exact ih

theorem buscarAsiento_actualizarPrimero_ne (l : List Asiento) (i i' : String)
    (g : Asiento → Asiento) (hg : ∀ a, (g a).id = a.id) (hne : i ≠ i') :
    buscarAsiento (actualizarPrimero l i' g) i = buscarAsiento l i := by
  induction l with
  | nil => rfl
  | cons a rest ih =>
    unfold actualizarPrimero
    by_cases ha : a.id = i'
    · simp only [ha, if_true]
      unfold buscarAsiento
      rw [hg a]
      have : ¬ a.id = i := by rw [ha]; exact fun hh => hne hh.symm
      simp [this]
    · simp only [ha, if_false]
      unfold buscarAsiento
      by_cases hai : a.id = i
      · simp [hai]
      · simp [hai, ih]

/-! ### Lemmas about the reservation loop of the purchase path -/

theorem reservar_id (a : Asiento) : (Asiento.reservar a).id = a.id := rfl

theorem foldRes_getElem_of_not_mem (ids : List String) (l : List Asiento) (j : Nat)
    (a : Asiento) (hj : l[j]? = some a) (hnm : a.id ∉ ids) :
    (List.foldl (fun l i => actualizarPrimero l i Asiento.reservar) l ids)[j]? = some a := by
  induction ids generalizing l with
  | nil => exact hj
  | cons i rest ih =>
    simp only [List.foldl_cons]
    refine ih _ ?_ fun h => hnm (List.mem_cons_of_mem _ h)
    exact actualizarPrimero_getElem_of_ne l i Asiento.reservar j a hj
      fun h => hnm (h ▸ List.mem_cons_self i rest)

theorem foldRes_buscar_mono (ids : List String) (l : List Asiento) (i : String)
    (a : Asiento) (hb : buscarAsiento l i = some a) (hd : a.disponible = false) :
    ∃ a2, buscarAsiento (List.foldl (fun l i => actualizarPrimero l i Asiento.reservar) l ids) i
        = some a2 ∧ a2.disponible = false := by
  induction ids generalizing l a with
  | nil => exact ⟨a, hb, hd⟩
  | cons i2 rest ih =>
    simp only [List.foldl_cons]
    by_cases hi : i = i2
    · subst hi
      refine ih (actualizarPrimero l i Asiento.reservar) a.reservar ?_ rfl
      rw [buscarAsiento_actualizarPrimero_self l i Asiento.reservar reservar_id, hb]
      rfl
    · refine ih (actualizarPrimero l i2 Asiento.reservar) a ?_ hd
      rw [buscarAsiento_actualizarPrimero_ne l i i2 Asiento.reservar reservar_id hi]
      exact hb

theorem foldRes_buscar_reservado (ids : List String) :
    ∀ (l : List Asiento) (i : String) (a : Asiento), i ∈ ids →
      buscarAsiento l i = some a →
      ∃ a2, buscarAsiento
          (List.foldl (fun l i => actualizarPrimero l i Asiento.reservar) l ids) i
        = some a2 ∧ a2.disponible = false := by
  induction ids with
  | nil => intro l i a hi _; simp at hi
  | cons i2 rest ih =>
    intro l i a hi hb
    simp only [List.foldl_cons]
    by_cases hieq : i = i2
    · subst hieq
      have hb2 : buscarAsiento (actualizarPrimero l i Asiento.reservar) i = some a.reservar := by
        rw [buscarAsiento_actualizarPrimero_self l i Asiento.reservar reservar_id, hb]
        rfl
      exact foldRes_buscar_mono rest _ i a.reservar hb2 rfl
    · have hi2 : i ∈ rest := by
        rcases List.mem_cons.mp hi with h | h
        · exact absurd h hieq
        · exact h
      refine ih (actualizarPrimero l i2 Asiento.reservar) i a hi2 ?_
      rw [buscarAsiento_actualizarPrimero_ne l i i2 Asiento.reservar reservar_id hieq]
      exact hb

theorem reservarAsientoEnFuncion_fecha (f : Funcion) (i : String) :
    (reservarAsientoEnFuncion f i).fecha = f.fecha := rfl

theorem reservarAsientoEnFuncion_pelicula (f : Funcion) (i : String) :
    (reservarAsientoEnFuncion f i).pelicula = f.pelicula := rfl

theorem reservarAsientoEnFuncion_nombre (f : Funcion) (i : String) :
    (reservarAsientoEnFuncion f i).teatro_funcion.nombre = f.teatro_funcion.nombre := rfl

theorem foldl_reservar_spec (ids : List String) (f : Funcion) :
    (List.foldl reservarAsientoEnFuncion f ids).fecha = f.fecha ∧
    (List.foldl reservarAsientoEnFuncion f ids).pelicula = f.pelicula ∧
    (List.foldl reservarAsientoEnFuncion f ids).teatro_funcion.nombre
      = f.teatro_funcion.nombre ∧
    (List.foldl reservarAsientoEnFuncion f ids).teatro_funcion.asientos
      = List.foldl (fun l i => actualizarPrimero l i Asiento.reservar)
          f.teatro_funcion.asientos ids := by
  induction ids generalizing f with
  | nil => exact ⟨rfl, rfl, rfl, rfl⟩
  | cons i rest ih =>
    simp only [List.foldl_cons]
    obtain ⟨h1, h2, h3, h4⟩ := ih (reservarAsientoEnFuncion f i)
    exact ⟨h1, h2, h3, h4⟩

/-! ### Lemmas about validation and the full purchase call -/

theorem validar_ok_valid {f : Funcion} :
    ∀ {ids : List String} {l : List Asiento}, validar_asientos f ids = .ok l →
      ∀ id_a ∈ ids, ∃ a, f.obtener_asiento_por_id id_a = some a ∧ a.esta_disponible = true := by
  intro ids
  induction ids with
  | nil => intro l _ id_a h; simp at h
  | cons i rest ih =>
    intro l h id_a hmem
    unfold validar_asientos at h
    match hb : f.obtener_asiento_por_id i with
    | none => rw [hb] at h; exact absurd h (by simp)
    | some asiento =>
      rw [hb] at h
      by_cases hd : asiento.esta_disponible
      · simp only [hd, if_true] at h
        match hv : validar_asientos f rest with
        | .error e => rw [hv] at h; exact absurd h (by simp)
        | .ok l2 =>
          rw [hv] at h
          rcases List.mem_cons.mp hmem with rfl | hmem2
          · exact ⟨asiento, hb, hd⟩
          · exact ih hv id_a hmem2
      · simp only [hd, if_false] at h
        exact absurd h (by simp)

theorem validar_ok_of_valid {f : Funcion} :
    ∀ {ids : List String},
      (∀ id_a ∈ ids, ∃ a, f.obtener_asiento_por_id id_a = some a ∧ a.esta_disponible = true) →
      ∃ l, validar_asientos f ids = .ok l ∧
        List.Forall₂ (fun id_a a => f.obtener_asiento_por_id id_a = some a) ids l := by
  intro ids
  induction ids with
  | nil => intro _; exact ⟨[], rfl, List.Forall₂.nil⟩
  | cons i rest ih =>
    intro hv
    obtain ⟨a, hba, hda⟩ := hv i (List.mem_cons_self i rest)
    obtain ⟨l2, hl2, hf2⟩ := ih fun id_a h => hv id_a (List.mem_cons_of_mem _ h)
    refine ⟨a :: l2, ?_, List.Forall₂.cons hba hf2⟩
    unfold validar_asientos
    rw [hba]
    simp only [hda, if_true, hl2]

theorem forall₂_getElem {R : String → Asiento → Prop} :
    ∀ {ids : List String} {l : List Asiento}, List.Forall₂ R ids l →
      ∀ (k : Nat) (id_a : String), ids[k]? = some id_a →
        ∃ a : Asiento, l[k]? = some a ∧ R id_a a := by
  intro ids l h
  induction h with
  | nil => intro k id_a h2; simp at h2
  | @cons x y xs ys hr _ ih =>
    intro k id_a h2
    cases k with
    | zero =>
      rw [List.getElem?_cons_zero] at h2
      injection h2 with h3
      subst h3
      exact ⟨y, List.getElem?_cons_zero, hr⟩
    | succ k =>
      rw [List.getElem?_cons_succ] at h2
      obtain ⟨a, ha, har⟩ := ih k id_a h2
      exact ⟨a, by rw [List.getElem?_cons_succ]; exact ha, har⟩

theorem reservar_y_emitir_funcion (c : Cliente) (precio : Nat) :
    ∀ (l : List Asiento) (f : Funcion) (comprados : List Tiquete)
      (tq : List (String × List Tiquete)) (arch : List (List String)),
      (reservar_y_emitir c precio l f comprados tq arch).funcion
        = List.foldl reservarAsientoEnFuncion f (l.map Asiento.id) := by
  intro l
  induction l with
  | nil => intro f comprados tq arch; rfl
  | cons a rest ih =>
    intro f comprados tq arch
    show (reservar_y_emitir c precio rest (reservarAsientoEnFuncion f a.id) _ _ _).funcion = _
    rw [ih (reservarAsientoEnFuncion f a.id)]
    rfl

theorem reservar_y_emitir_comprados (c : Cliente) (precio : Nat) :
    ∀ (l : List Asiento) (f : Funcion) (comprados : List Tiquete)
      (tq : List (String × List Tiquete)) (arch : List (List String)),
      (reservar_y_emitir c precio l f comprados tq arch).tiquetes_comprados
        = comprados ++ l.map (fun a =>
            ⟨precio, ⟨f.fecha, f.teatro_funcion.nombre, f.pelicula.nombre⟩, c, a.reservar⟩) := by
  intro l
  induction l with
  | nil => intro f comprados tq arch; simp [reservar_y_emitir]
  | cons a rest ih =>
    intro f comprados tq arch
    show (reservar_y_emitir c precio rest (reservarAsientoEnFuncion f a.id) _ _ _).tiquetes_comprados = _
    rw [ih (reservarAsientoEnFuncion f a.id)]
    simp only [reservarAsientoEnFuncion_fecha, reservarAsientoEnFuncion_pelicula,
      reservarAsientoEnFuncion_nombre, List.map_cons]
    simp

theorem reservar_y_emitir_archivo (c : Cliente) (precio : Nat) :
    ∀ (l : List Asiento) (f : Funcion) (comprados : List Tiquete)
      (tq : List (String × List Tiquete)) (arch : List (List String)),
      (reservar_y_emitir c precio l f comprados tq arch).archivo_tiquetes
        = arch ++ l.map (fun a =>
            [formatFecha f.fecha, f.teatro_funcion.nombre, f.pelicula.nombre, a.id]) := by
  intro l
  induction l with
  | nil => intro f comprados tq arch; simp [reservar_y_emitir]
  | cons a rest ih =>
    intro f comprados tq arch
    show (reservar_y_emitir c precio rest (reservarAsientoEnFuncion f a.id) _ _ _).archivo_tiquetes = _
    rw [ih (reservarAsientoEnFuncion f a.id)]
    simp only [reservarAsientoEnFuncion_fecha, reservarAsientoEnFuncion_pelicula,
      reservarAsientoEnFuncion_nombre, List.map_cons]
    simp [registroDeTiquete, reservar_id]

theorem forall₂_map_id {f : Funcion} :
    ∀ {ids : List String} {l : List Asiento},
      List.Forall₂ (fun id_a a => f.obtener_asiento_por_id id_a = some a) ids l →
      l.map Asiento.id = ids := by
  intro ids l h
  induction h with
  | nil => rfl
  | @cons x y xs ys hr _ ih =>
    have hid : y.id = x := buscarAsiento_id hr
    simp [ih, hid]

theorem comprar_ok_of_valid (f : Funcion) (c : Cliente) (ids : List String) (precio : Nat)
    (tq : List (String × List Tiquete)) (arch : List (List String))
    (hne : ids ≠ [])
    (hv : ∀ id_a ∈ ids, ∃ a, f.obtener_asiento_por_id id_a = some a ∧
      a.esta_disponible = true) :
    ∃ r, comprar_tiquetes f c ids precio tq arch = .ok r ∧
      r.funcion.fecha = f.fecha ∧
      r.funcion.pelicula = f.pelicula ∧
      r.funcion.teatro_funcion.nombre = f.teatro_funcion.nombre ∧
      r.tiquetes_comprados.length = ids.length ∧
      (∀ (k : Nat) (id_a : String), ids[k]? = some id_a →
        ∃ t : Tiquete, r.tiquetes_comprados[k]? = some t ∧
          t.precio = precio ∧ t.cliente = c ∧
          t.funcion = ⟨f.fecha, f.teatro_funcion.nombre, f.pelicula.nombre⟩ ∧
          t.asiento.id = id_a ∧ t.asiento.disponible = false) ∧
      (∀ id_a ∈ ids, ∃ a, r.funcion.obtener_asiento_por_id id_a = some a ∧
        a.disponible = false) ∧
      (∀ (j : Nat) (a : Asiento), f.teatro_funcion.asientos[j]? = some a → a.id ∉ ids →
        r.funcion.teatro_funcion.asientos[j]? = some a) ∧
      r.archivo_tiquetes = arch ++ ids.map (fun id_a =>
        [formatFecha f.fecha, f.teatro_funcion.nombre, f.pelicula.nombre, id_a]) := by
  obtain ⟨l, hval, hf2⟩ := validar_ok_of_valid hv
  have hids_eq : l.map Asiento.id = ids := forall₂_map_id hf2
  have hempty : ids.isEmpty = false := by
    cases ids with
    | nil => exact absurd rfl hne
    | cons a b => rfl
  have hok : comprar_tiquetes f c ids precio tq arch
      = .ok (reservar_y_emitir c precio l f [] tq arch) := by
    unfold comprar_tiquetes
    rw [hempty, hval]
    simp
  set r := reservar_y_emitir c precio l f [] tq arch with hr
  have hfun : r.funcion = List.foldl reservarAsientoEnFuncion f ids := by
    rw [hr, reservar_y_emitir_funcion, hids_eq]
  obtain ⟨hfe, hpe, hno, has⟩ := foldl_reservar_spec ids f
  have hcompr : r.tiquetes_comprados = l.map (fun a =>
      ⟨precio, ⟨f.fecha, f.teatro_funcion.nombre, f.pelicula.nombre⟩, c, a.reservar⟩) := by
    rw [hr, reservar_y_emitir_comprados]
    simp
  refine ⟨r, hok, ?_, ?_, ?_, ?_, ?_, ?_, ?_, ?_⟩
  · rw [hfun]; exact hfe
  · rw [hfun]; exact hpe
  · rw [hfun]; exact hno
  · rw [hcompr, List.length_map, hf2.length_eq]
  · intro k id_a hk
    obtain ⟨a, hak, har⟩ := forall₂_getElem hf2 k id_a hk
    refine ⟨⟨precio, ⟨f.fecha, f.teatro_funcion.nombre, f.pelicula.nombre⟩, c, a.reservar⟩,
      ?_, rfl, rfl, rfl, ?_, rfl⟩
    · rw [hcompr, List.getElem?_map, hak]
      rfl
    · show a.reservar.id = id_a
      rw [reservar_id]
      exact buscarAsiento_id har
  · intro id_a hmem
    obtain ⟨a, hba, _⟩ := hv id_a hmem
    have : r.funcion.obtener_asiento_por_id id_a
        = buscarAsiento (List.foldl (fun l i => actualizarPrimero l i Asiento.reservar)
            f.teatro_funcion.asientos ids) id_a := by
      unfold Funcion.obtener_asiento_por_id
      rw [hfun, has]
    rw [this]
    exact foldRes_buscar_reservado ids f.teatro_funcion.asientos id_a a hmem hba
  · intro j a hj hnm
    rw [hfun, has]
    exact foldRes_getElem_of_not_mem ids f.teatro_funcion.asientos j a hj hnm
  · rw [hr, reservar_y_emitir_archivo, ← hids_eq, List.map_map]
    rfl

/-! ### Claim C1: invalid input aborts a purchase before any mutation -/

/-- C1: a purchase call whose seat-id list is empty, or names an id absent
from the Showing's own inventory, or names a seat that is unavailable,
raises a `ValueError`, and the raise happens with the showing's seat
state, the customer ticket dictionary and the log file exactly as they
were at entry — no partial reservation occurs. -/
theorem c1_validacion_previa_sin_mutacion (f : Funcion) (c : Cliente) (ids : List String)
    (precio : Nat) (tq : List (String × List Tiquete)) (arch : List (List String))
    (hbad : ids = [] ∨ ∃ id_a ∈ ids, f.obtener_asiento_por_id id_a = none ∨
      ∃ a, f.obtener_asiento_por_id id_a = some a ∧ a.esta_disponible = false) :
    ∃ e, comprar_tiquetes f c ids precio tq arch = .error ⟨e, f, tq, arch⟩ := by
  by_cases hids : ids = []
  · subst hids
    exact ⟨"Seleccione al menos un asiento.", rfl⟩
  · have hempty : ids.isEmpty = false := by
      cases ids with
      | nil => exact absurd rfl hids
      | cons a b => rfl
    cases hval : validar_asientos f ids with
    | error e =>
      refine ⟨e, ?_⟩
      unfold comprar_tiquetes
      rw [hempty, hval]
      simp
    | ok l =>
      exfalso
      rcases hbad with hbad | ⟨id_a, hmem, hbad⟩
      · exact hids hbad
      · obtain ⟨a, hba, hda⟩ := validar_ok_valid hval id_a hmem
        rcases hbad with hbad | ⟨a2, hba2, hda2⟩
        · rw [hbad] at hba
          exact Option.noConfusion hba
        · rw [hba2] at hba
          injection hba with hba
          subst hba
          rw [hda] at hda2
          exact Bool.noConfusion hda2

/-- Witness for C1 at a concrete input: requesting the nonexistent seat
`ZZ` on the five-seat example showing fails and leaves all state intact. -/
theorem c1_validacion_previa_sin_mutacion_witness :
    ∃ e, comprar_tiquetes funcionEjemplo clienteEjemplo ["ZZ"] 15000 [] []
      = .error ⟨e, funcionEjemplo, [], []⟩ :=
  c1_validacion_previa_sin_mutacion funcionEjemplo clienteEjemplo ["ZZ"] 15000 [] []
    (Or.inr ⟨"ZZ", by decide, Or.inl rfl⟩)

/-! ### Claim C7: an all-valid purchase succeeds exactly -/

/-- C7: a purchase call whose requested seat ids all exist in the
Showing's inventory and are all available succeeds, returns exactly one
ticket per requested id (each with the given price and customer,
referencing the showing's identifying fields and the requested seat,
which is occupied at ticket creation), marks each requested seat
unavailable in the showing, and leaves every seat whose id was not
requested exactly as it was. -/
theorem c7_compra_valida_exacta (f : Funcion) (c : Cliente) (ids : List String)
    (precio : Nat) (tq : List (String × List Tiquete)) (arch : List (List String))
    (hne : ids ≠ [])
    (hv : ∀ id_a ∈ ids, ∃ a, f.obtener_asiento_por_id id_a = some a ∧
      a.esta_disponible = true) :
    ∃ r, comprar_tiquetes f c ids precio tq arch = .ok r ∧
      r.tiquetes_comprados.length = ids.length ∧
      (∀ (k : Nat) (id_a : String), ids[k]? = some id_a →
        ∃ t : Tiquete, r.tiquetes_comprados[k]? = some t ∧
          t.precio = precio ∧ t.cliente = c ∧
          t.funcion = ⟨f.fecha, f.teatro_funcion.nombre, f.pelicula.nombre⟩ ∧
          t.asiento.id = id_a ∧ t.asiento.disponible = false) ∧
      (∀ id_a ∈ ids, ∃ a, r.funcion.obtener_asiento_por_id id_a = some a ∧
        a.disponible = false) ∧
      (∀ (j : Nat) (a : Asiento), f.teatro_funcion.asientos[j]? = some a → a.id ∉ ids →
        r.funcion.teatro_funcion.asientos[j]? = some a) := by
  obtain ⟨r, h1, _, _, _, h5, h6, h7, h8, _⟩ :=
    comprar_ok_of_valid f c ids precio tq arch hne hv
  exact ⟨r, h1, h5, h6, h7, h8⟩

/-- Witness for C7 at a concrete input: buying `A1` and `B1` on the
five-seat example showing. -/
theorem c7_compra_valida_exacta_witness :
    ∃ r, comprar_tiquetes funcionEjemplo clienteEjemplo ["A1", "B1"] 15000 [] [] = .ok r ∧
      r.tiquetes_comprados.length = ["A1", "B1"].length ∧
      (∀ (k : Nat) (id_a : String), ["A1", "B1"][k]? = some id_a →
        ∃ t : Tiquete, r.tiquetes_comprados[k]? = some t ∧
          t.precio = 15000 ∧ t.cliente = clienteEjemplo ∧
          t.funcion = ⟨funcionEjemplo.fecha, funcionEjemplo.teatro_funcion.nombre,
            funcionEjemplo.pelicula.nombre⟩ ∧
          t.asiento.id = id_a ∧ t.asiento.disponible = false) ∧
      (∀ id_a ∈ ["A1", "B1"], ∃ a, r.funcion.obtener_asiento_por_id id_a = some a ∧
        a.disponible = false) ∧
      (∀ (j : Nat) (a : Asiento), funcionEjemplo.teatro_funcion.asientos[j]? = some a →
        a.id ∉ ["A1", "B1"] → r.funcion.teatro_funcion.asientos[j]? = some a) :=
  c7_compra_valida_exacta funcionEjemplo clienteEjemplo ["A1", "B1"] 15000 [] []
    (by decide)
    (by
      intro id_a h
      rcases List.mem_cons.mp h with rfl | h2
      · exact ⟨⟨"A1", true⟩, rfl, rfl⟩
      · rcases List.mem_cons.mp h2 with rfl | h3
        · exact ⟨⟨"B1", true⟩, rfl, rfl⟩
        · simp at h3)

/-! ### Claim C10: duplicated seat ids pass validation -/

/-- C10: when the requested list repeats an available seat id (and every
listed id exists and is available), validation does not reject the
duplication: the call succeeds, returns one ticket per list entry, and
the two entries for the repeated id yield two tickets referencing the
same seat id — a seat that can only be reserved once. -/
theorem c10_duplicados_no_rechazados (f : Funcion) (c : Cliente) (ids : List String)
    (precio : Nat) (tq : List (String × List Tiquete)) (arch : List (List String))
    (hv : ∀ id_a ∈ ids, ∃ a, f.obtener_asiento_por_id id_a = some a ∧
      a.esta_disponible = true)
    (k k2 : Nat) (hkk : k ≠ k2) (id_a : String)
    (hk : ids[k]? = some id_a) (hk2 : ids[k2]? = some id_a) :
    ∃ r, comprar_tiquetes f c ids precio tq arch = .ok r ∧
      r.tiquetes_comprados.length = ids.length ∧
      ∃ t t2 : Tiquete, r.tiquetes_comprados[k]? = some t ∧
        r.tiquetes_comprados[k2]? = some t2 ∧
        t.asiento.id = t2.asiento.id ∧ t.asiento.id = id_a := by
  have hne : ids ≠ [] := by
    intro h
    subst h
    simp at hk
  obtain ⟨r, h1, _, _, _, h5, h6, _, _, _⟩ :=
    comprar_ok_of_valid f c ids precio tq arch hne hv
  obtain ⟨t, ht, _, _, _, htid, _⟩ := h6 k id_a hk
  obtain ⟨t2, ht2, _, _, _, ht2id, _⟩ := h6 k2 id_a hk2
  exact ⟨r, h1, h5, t, t2, ht, ht2, htid.trans ht2id.symm, htid⟩

/-- Witness for C10 at a concrete input: requesting `A1` twice yields two
tickets for the single seat `A1`. -/
theorem c10_duplicados_no_rechazados_witness :
    ∃ r, comprar_tiquetes funcionEjemplo clienteEjemplo ["A1", "A1"] 15000 [] [] = .ok r ∧
      r.tiquetes_comprados.length = ["A1", "A1"].length ∧
      ∃ t t2 : Tiquete, r.tiquetes_comprados[0]? = some t ∧
        r.tiquetes_comprados[1]? = some t2 ∧
        t.asiento.id = t2.asiento.id ∧ t.asiento.id = "A1" :=
  c10_duplicados_no_rechazados funcionEjemplo clienteEjemplo ["A1", "A1"] 15000 [] []
    (by
      intro id_a h
      rcases List.mem_cons.mp h with rfl | h2
      · exact ⟨⟨"A1", true⟩, rfl, rfl⟩
      · rcases List.mem_cons.mp h2 with rfl | h3
        · exact ⟨⟨"A1", true⟩, rfl, rfl⟩
        · simp at h3)
    0 1 (by decide) "A1" rfl rfl

/-! ### Claim C3 (corrected): the engine does not check the deadline -/

/-- Counterexample to C3 as stated: the example showing starts at instant
0, so at instant 100 its purchase deadline (30) has passed, yet
`comprar_tiquetes` (which never consults the clock) succeeds on the valid
available seat `A1` and reserves it. -/
theorem c3_contraejemplo :
    funcionEjemplo.fechaLimite_pasada 100 = true ∧
    comprar_tiquetes funcionEjemplo clienteEjemplo ["A1"] 15000 [] []
      = .ok ⟨⟨⟨"Peli", "Drama"⟩,
             ⟨"Sala 1", [⟨"A1", false⟩, ⟨"B1", true⟩, ⟨"C1", true⟩, ⟨"D1", true⟩, ⟨"E1", true⟩]⟩,
             0, 30⟩,
            [⟨15000, ⟨0, "Sala 1", "Peli"⟩, clienteEjemplo, ⟨"A1", false⟩⟩],
            [("1234567890", [⟨15000, ⟨0, "Sala 1", "Peli"⟩, clienteEjemplo, ⟨"A1", false⟩⟩])],
            [["0", "Sala 1", "Peli", "A1"]]⟩ :=
  ⟨rfl, rfl⟩

/-- C3 (amended): `Admin.comprar_tiquetes` itself performs no deadline
check — with valid available seats it succeeds even when the purchase
deadline has passed; the rejection of late purchases is enforced only by
the GUI guard (`_confirm_purchase`, src/main.py:1112), which refuses to
start a purchase once `fechaLimite_pasada` is true, and no seat is
reserved in that case because the engine is never invoked. -/
theorem c3_plazo_solo_en_gui (f : Funcion) (ahora : Nat)
    (hpast : f.fechaLimite_pasada ahora = true)
    (c : Cliente) (ids : List String) (precio : Nat)
    (tq : List (String × List Tiquete)) (arch : List (List String))
    (hne : ids ≠ [])
    (hv : ∀ id_a ∈ ids, ∃ a, f.obtener_asiento_por_id id_a = some a ∧
      a.esta_disponible = true) :
    _confirm_purchase_procede (some f) ids ahora = false ∧
    ∃ r, comprar_tiquetes f c ids precio tq arch = .ok r ∧
      r.tiquetes_comprados.length = ids.length := by
  constructor
  · show (!ids.isEmpty && !f.fechaLimite_pasada ahora) = false
    rw [hpast]
    simp
  · obtain ⟨r, h1, _, _, _, h5, _, _, _, _⟩ :=
      comprar_ok_of_valid f c ids precio tq arch hne hv
    exact ⟨r, h1, h5⟩

/-- Witness for the amended C3 at a concrete input. -/
theorem c3_plazo_solo_en_gui_witness :
    _confirm_purchase_procede (some funcionEjemplo) ["A1"] 100 = false ∧
    ∃ r, comprar_tiquetes funcionEjemplo clienteEjemplo ["A1"] 15000 [] [] = .ok r ∧
      r.tiquetes_comprados.length = ["A1"].length :=
  c3_plazo_solo_en_gui funcionEjemplo 100 rfl clienteEjemplo ["A1"] 15000 [] []
    (by decide)
    (by
      intro id_a h
      rcases List.mem_cons.mp h with rfl | h2
      · exact ⟨⟨"A1", true⟩, rfl, rfl⟩
      · simp at h2)

/-! ### Lemmas about dictionary and positional updates -/

theorem buscarClave_mem {α : Type} :
    ∀ {m : List (String × α)} {s : String} {v : α},
      buscarClave m s = some v → (s, v) ∈ m := by
  intro m
  induction m with
  | nil => intro s v h; simp [buscarClave] at h
  | cons q rest ih =>
    obtain ⟨k, w⟩ := q
    intro s v h
    simp only [buscarClave] at h
    by_cases hk : k = s
    · simp only [hk, if_true] at h
      injection h with h
      subst h
      subst hk
      exact List.mem_cons_self _ _
    · simp only [hk, if_false] at h
      exact List.mem_cons_of_mem _ (ih h)

theorem mem_actualizarClave {α : Type} :
    ∀ {m : List (String × α)} {s : String} {g : α → α} {p : String × α},
      p ∈ actualizarClave m s g →
      p ∈ m ∨ ∃ v, buscarClave m s = some v ∧ p = (s, g v) := by
  intro m
  induction m with
  | nil => intro s g p h; simp [actualizarClave] at h
  | cons q rest ih =>
    obtain ⟨k, w⟩ := q
    intro s g p h
    simp only [actualizarClave] at h
    by_cases hk : k = s
    · simp only [hk, if_true] at h
      rcases List.mem_cons.mp h with rfl | h2
      · right
        refine ⟨w, ?_, rfl⟩
        simp [buscarClave, hk]
      · exact Or.inl (List.mem_cons_of_mem _ h2)
    · simp only [hk, if_false] at h
      rcases List.mem_cons.mp h with rfl | h2
      · exact Or.inl (List.mem_cons_self _ _)
      · rcases ih h2 with h3 | ⟨v, hv, hp⟩
        · exact Or.inl (List.mem_cons_of_mem _ h3)
        · right
          refine ⟨v, ?_, hp⟩
          simp only [buscarClave, hk, if_false]
          exact hv

theorem buscarClave_actualizarClave_self {α : Type} :
    ∀ (m : List (String × α)) (s : String) (g : α → α),
      buscarClave (actualizarClave m s g) s = (buscarClave m s).map g := by
  intro m
  induction m with
  | nil => intro s g; rfl
  | cons q rest ih =>
    obtain ⟨k, w⟩ := q
    intro s g
    simp only [actualizarClave]
    by_cases hk : k = s
    · simp only [hk, if_true]
      simp [buscarClave, hk]
    · simp only [hk, if_false]
      simp only [buscarClave, hk, if_false]
      exact ih s g

theorem buscarClave_actualizarClave_ne {α : Type} :
    ∀ (m : List (String × α)) (s s2 : String) (g : α → α), s2 ≠ s →
      buscarClave (actualizarClave m s g) s2 = buscarClave m s2 := by
  intro m
  induction m with
  | nil => intro s s2 g _; rfl
  | cons q rest ih =>
    obtain ⟨k, w⟩ := q
    intro s s2 g hne
    simp only [actualizarClave]
    by_cases hk : k = s
    · simp only [hk, if_true]
      have hs2 : ¬ s = s2 := fun h => hne h.symm
      simp [buscarClave, hs2]
    · simp only [hk, if_false]
      by_cases hk2 : k = s2
      · simp [buscarClave, hk2]
      · simp only [buscarClave, hk2, if_false]
        exact ih s s2 g hne

theorem modificar_length {α : Type} (l : List α) (i : Nat) (g : α → α) :
    (modificar l i g).length = l.length := by
  induction l generalizing i with
  | nil => rfl
  | cons a rest ih =>
    cases i with
    | zero => rfl
    | succ i => simp [modificar, ih]

theorem modificar_getElem_self {α : Type} (l : List α) (i : Nat) (g : α → α) :
    (modificar l i g)[i]? = (l[i]?).map g := by
  induction l generalizing i with
  | nil => cases i <;> rfl
  | cons a rest ih =>
    cases i with
    | zero => simp [modificar]
    | succ i =>
      show (a :: modificar rest i g)[i + 1]? = _
      rw [List.getElem?_cons_succ, List.getElem?_cons_succ]
      exact ih i

theorem modificar_getElem_ne {α : Type} (l : List α) (i j : Nat) (g : α → α)
    (h : j ≠ i) : (modificar l i g)[j]? = l[j]? := by
  induction l generalizing i j with
  | nil => cases i <;> rfl
  | cons a rest ih =>
    cases i with
    | zero =>
      cases j with
      | zero => exact absurd rfl h
      | succ j =>
        show (g a :: rest)[j + 1]? = _
        rw [List.getElem?_cons_succ, List.getElem?_cons_succ]
    | succ i =>
      cases j with
      | zero => simp [modificar]
      | succ j =>
        show (a :: modificar rest i g)[j + 1]? = _
        rw [List.getElem?_cons_succ, List.getElem?_cons_succ]
        exact ih i j fun h2 => h (by omega)

/-! ### Claim C2 (corrected): the load cap is keyed by room alone -/

theorem buscarClave_ceros {ns : List String} :
    ∀ {s : String} {c : Nat},
      buscarClave (ns.map fun n => (n, (0 : Nat))) s = some c → c = 0 := by
  induction ns with
  | nil => intro s c h; simp [buscarClave] at h
  | cons n rest ih =>
    intro s c h
    rw [List.map_cons] at h
    simp only [buscarClave] at h
    by_cases hn : n = s
    · simp only [hn, if_true] at h
      injection h with h
      exact h.symm
    · simp only [hn, if_false] at h
      exact ih h

theorem paso_cargar_invariante (teatros : List (String × Teatro))
    (st : List (String × List Funcion) × List (String × Nat) × Nat) (reg : List String)
    (hc : ∀ s c, buscarClave st.2.1 s = some c → c ≤ 2)
    (hl : ∀ p ∈ st.1, p.2.length ≤ (buscarClave st.2.1 p.1).getD 0) :
    (∀ s c, buscarClave (paso_cargar teatros st reg).2.1 s = some c → c ≤ 2) ∧
    (∀ p ∈ (paso_cargar teatros st reg).1,
      p.2.length ≤ (buscarClave (paso_cargar teatros st reg).2.1 p.1).getD 0) := by
  match reg with
  | [] => exact ⟨hc, hl⟩
  | [_] => exact ⟨hc, hl⟩
  | [_, _] => exact ⟨hc, hl⟩
  | [_, _, _] => exact ⟨hc, hl⟩
  | f_str :: p_nom :: p_gen :: s_nom :: resto =>
    show (∀ s c, buscarClave (paso_cargar teatros st (f_str :: p_nom :: p_gen :: s_nom :: resto)).2.1 s = some c → c ≤ 2) ∧ _
    simp only [paso_cargar]
    cases hf : parseFecha (strip f_str) with
    | none => exact ⟨hc, hl⟩
    | some fecha =>
      cases ht : buscarClave teatros (strip s_nom) with
      | none => exact ⟨hc, hl⟩
      | some teatro_p =>
        cases hcs : buscarClave st.2.1 (strip s_nom) with
        | none => exact ⟨hc, hl⟩
        | some c =>
          by_cases hcap : 2 ≤ c
          · simp only [hcap, if_true]
            exact ⟨hc, hl⟩
          · simp only [hcap, if_false]
            cases hfd : buscarClave st.1 (strip s_nom) with
            | none => exact ⟨hc, hl⟩
            | some fs =>
              constructor
              · intro s c2 hbc
                simp only at hbc
                by_cases hs : s = strip s_nom
                · subst hs
                  rw [buscarClave_actualizarClave_self, hcs] at hbc
                  simp only [Option.map_some'] at hbc
                  injection hbc with hbc
                  omega
                · rw [buscarClave_actualizarClave_ne _ _ _ _ hs] at hbc
                  exact hc s c2 hbc
              · intro p hp
                simp only at hp ⊢
                rcases mem_actualizarClave hp with hp2 | ⟨v, hv, rfl⟩
                · by_cases hs : p.1 = strip s_nom
                  · rw [hs, buscarClave_actualizarClave_self, hcs]
                    have h6 := hl p hp2
                    rw [hs, hcs] at h6
                    simp only [Option.map_some', Option.getD_some] at h6 ⊢
                    omega
                  · rw [buscarClave_actualizarClave_ne _ _ _ _ hs]
                    exact hl p hp2
                · rw [hv] at hfd
                  injection hfd with hfd
                  subst hfd
                  show (v ++ [_]).length ≤ _
                  rw [buscarClave_actualizarClave_self, hcs]
                  have h6 := hl (strip s_nom, v) (buscarClave_mem hv)
                  rw [hcs] at h6
                  simp only [Option.map_some', Option.getD_some, List.length_append,
                    List.length_singleton] at h6 ⊢
                  omega

theorem cargar_foldl_invariante (teatros : List (String × Teatro))
    (registros : List (List String))
    (st : List (String × List Funcion) × List (String × Nat) × Nat)
    (hc : ∀ s c, buscarClave st.2.1 s = some c → c ≤ 2)
    (hl : ∀ p ∈ st.1, p.2.length ≤ (buscarClave st.2.1 p.1).getD 0) :
    ∀ p ∈ (registros.foldl (paso_cargar teatros) st).1, p.2.length ≤ 2 := by
  induction registros generalizing st with
  | nil =>
    intro p hp
    have h2 := hl p hp
    cases hb : buscarClave st.2.1 p.1 with
    | none =>
      rw [hb] at h2
      simp only [Option.getD_none] at h2
      omega
    | some c =>
      rw [hb] at h2
      have h3 := hc p.1 c hb
      simp only [Option.getD_some] at h2
      omega
  | cons reg rest ih =>
    intro p hp
    obtain ⟨hc2, hl2⟩ := paso_cargar_invariante teatros st reg hc hl
    exact ih (paso_cargar teatros st reg) hc2 hl2 p hp

/-- Counterexample to C2 as stated: three records for room `Sala 1` whose
timestamps 0, 1440 and 2880 lie on three distinct calendar dates (days 0,
1 and 2 at 1440 minutes per day).  Under a cap keyed by (room, date) each
key would hold one showing and all three would load; the code loads only
the first two and drops the third, so records for the same room on
different calendar dates do count against each other. -/
theorem c2_contraejemplo :
    ((adminEjemplo.cargar_funciones_desde_archivo
        [["0", "P1", "G", "Sala 1"], ["1440", "P2", "G", "Sala 1"],
         ["2880", "P3", "G", "Sala 1"]]).1.funciones_diarias.map
      fun p => (p.1, p.2.map Funcion.fecha))
      = [("Sala 1", [0, 1440]), ("Sala 2", []), ("Sala 3", [])] ∧
    (0 : Nat) / 1440 ≠ 1440 / 1440 ∧ (1440 : Nat) / 1440 ≠ 2880 / 1440 ∧
    (0 : Nat) / 1440 ≠ 2880 / 1440 ∧
    (adminEjemplo.cargar_funciones_desde_archivo
        [["0", "P1", "G", "Sala 1"], ["1440", "P2", "G", "Sala 1"],
         ["2880", "P3", "G", "Sala 1"]]).2 = 2 := by
  refine ⟨?_, by decide, by decide, by decide, ?_⟩ <;> rfl

/-- C2 (amended): the running count that triggers the soft cap during
loadSchedule is keyed by room name alone, not by (room, date): a record
is dropped once 2 records have already been accepted for its room in this
load, regardless of calendar date, so after any load from a nonempty
record list every room's list holds at most 2 Showings in total. -/
theorem c2_tope_por_sala (admin : Admin) (registros : List (List String))
    (hne : registros ≠ []) :
    ∀ p ∈ (admin.cargar_funciones_desde_archivo registros).1.funciones_diarias,
      p.2.length ≤ 2 := by
  have hempty : registros.isEmpty = false := by
    cases registros with
    | nil => exact absurd rfl hne
    | cons a b => rfl
  unfold Admin.cargar_funciones_desde_archivo
  rw [hempty]
  simp only [Bool.false_eq_true, if_false]
  refine cargar_foldl_invariante admin.teatros registros _
    (fun s c h => by rw [buscarClave_ceros h]; omega) ?_
  intro p hp
  rw [List.mem_map] at hp
  obtain ⟨q, _, rfl⟩ := hp
  simp

set_option maxRecDepth 4096 in
/-- Witness for the amended C2 at a concrete input: after the
counterexample load, the first room entry (Sala 1) holds at most 2
showings. -/
theorem c2_tope_por_sala_witness :
    ((adminEjemplo.cargar_funciones_desde_archivo
        [["0", "P1", "G", "Sala 1"], ["1440", "P2", "G", "Sala 1"],
         ["2880", "P3", "G", "Sala 1"]]).1.funciones_diarias.headI).2.length ≤ 2 :=
  c2_tope_por_sala adminEjemplo
    [["0", "P1", "G", "Sala 1"], ["1440", "P2", "G", "Sala 1"], ["2880", "P3", "G", "Sala 1"]]
    (by decide)
    ((adminEjemplo.cargar_funciones_desde_archivo
        [["0", "P1", "G", "Sala 1"], ["1440", "P2", "G", "Sala 1"],
         ["2880", "P3", "G", "Sala 1"]]).1.funciones_diarias.headI)
    (by decide)

/-! ### Claim C4 (corrected): full replace only for nonempty inputs -/

/-- Counterexample to C4 as stated: on the empty record list,
`cargar_funciones_desde_archivo` returns before the clearing step, so a
previously loaded Showing survives and the set of Showings after the call
does not depend only on the new records: two states with the same (empty)
input yield different showings. -/
theorem c4_contraejemplo :
    (((adminEjemplo.cargar_funciones_desde_archivo
        [["0", "P1", "G", "Sala 1"]]).1.cargar_funciones_desde_archivo []).1
      = (adminEjemplo.cargar_funciones_desde_archivo [["0", "P1", "G", "Sala 1"]]).1 ∧
     ((adminEjemplo.cargar_funciones_desde_archivo
        [["0", "P1", "G", "Sala 1"]]).1.cargar_funciones_desde_archivo []).2 = 0) ∧
    (((adminEjemplo.cargar_funciones_desde_archivo
        [["0", "P1", "G", "Sala 1"]]).1.cargar_funciones_desde_archivo []).1.funciones_diarias.map
        fun p => (p.1, p.2.length))
      = [("Sala 1", 1), ("Sala 2", 0), ("Sala 3", 0)] ∧
    ((adminEjemplo.cargar_funciones_desde_archivo []).1.funciones_diarias.map
        fun p => (p.1, p.2.length))
      = [("Sala 1", 0), ("Sala 2", 0), ("Sala 3", 0)] :=
  ⟨⟨rfl, rfl⟩, rfl, rfl⟩

/-- C4 (amended): for every nonempty record list, loadSchedule clears all
previously loaded Showings before loading, so the resulting Showings (and
the returned count) depend only on the new records, the room templates
and the room-key layout — not on any previously loaded Showings; for the
empty record list the method returns immediately, leaving previously
loaded Showings in place. -/
theorem c4_reemplazo_total_si_no_vacio (a1 a2 : Admin) (registros : List (List String))
    (hne : registros ≠ [])
    (ht : a1.teatros = a2.teatros)
    (hk : a1.funciones_diarias.map Prod.fst = a2.funciones_diarias.map Prod.fst) :
    (a1.cargar_funciones_desde_archivo registros).1.funciones_diarias
      = (a2.cargar_funciones_desde_archivo registros).1.funciones_diarias ∧
    (a1.cargar_funciones_desde_archivo registros).2
      = (a2.cargar_funciones_desde_archivo registros).2 := by
  have hempty : registros.isEmpty = false := by
    cases registros with
    | nil => exact absurd rfl hne
    | cons a b => rfl
  have hfd0 : a1.funciones_diarias.map (fun p => (p.1, ([] : List Funcion)))
      = a2.funciones_diarias.map (fun p => (p.1, ([] : List Funcion))) := by
    have hcomp : ∀ (l : List (String × List Funcion)),
        l.map (fun p => (p.1, ([] : List Funcion)))
          = (l.map Prod.fst).map (fun s => (s, ([] : List Funcion))) := by
      intro l
      rw [List.map_map]
      rfl
    rw [hcomp, hcomp, hk]
  unfold Admin.cargar_funciones_desde_archivo
  rw [hempty, ht, hfd0]
  exact ⟨rfl, rfl⟩

/-- Witness for the amended C4 at a concrete input: a state with a
previously loaded showing and the fresh state produce identical showings
from the same nonempty record list. -/
theorem c4_reemplazo_total_si_no_vacio_witness :
    ((adminEjemplo.cargar_funciones_desde_archivo
        [["0", "P1", "G", "Sala 1"]]).1.cargar_funciones_desde_archivo
          [["60", "P2", "G", "Sala 2"]]).1.funciones_diarias
      = (adminEjemplo.cargar_funciones_desde_archivo
          [["60", "P2", "G", "Sala 2"]]).1.funciones_diarias ∧
    ((adminEjemplo.cargar_funciones_desde_archivo
        [["0", "P1", "G", "Sala 1"]]).1.cargar_funciones_desde_archivo
          [["60", "P2", "G", "Sala 2"]]).2
      = (adminEjemplo.cargar_funciones_desde_archivo [["60", "P2", "G", "Sala 2"]]).2 :=
  c4_reemplazo_total_si_no_vacio
    (adminEjemplo.cargar_funciones_desde_archivo [["0", "P1", "G", "Sala 1"]]).1
    adminEjemplo [["60", "P2", "G", "Sala 2"]] (by decide) rfl rfl

/-! ### Claim C6: per-showing seat state is independent -/

/-- C6: a Showing's inventory is a deep copy of its RoomTemplate
(`copy.deepcopy`, src/main.py:191), so reserving or releasing a seat of
the showing stored at position `(si, fi)` leaves every RoomTemplate of
the catalog and every other loaded Showing byte-for-byte unchanged. -/
theorem c6_inventario_independiente (admin : Admin) (si fi : Nat) (id_a : String) :
    (reservar_asiento_de_funcion admin si fi id_a).teatros = admin.teatros ∧
    (desreservar_asiento_de_funcion admin si fi id_a).teatros = admin.teatros ∧
    (Funcion.nueva 0 ⟨"", ""⟩ (Teatro.nuevo "Sala 1" DEFAULT_SEATS_PER_THEATER)).teatro_funcion
      = Teatro.nuevo "Sala 1" DEFAULT_SEATS_PER_THEATER ∧
    ∀ (si2 fi2 : Nat), ¬(si2 = si ∧ fi2 = fi) →
      funcionEn (reservar_asiento_de_funcion admin si fi id_a).funciones_diarias si2 fi2
        = funcionEn admin.funciones_diarias si2 fi2 ∧
      funcionEn (desreservar_asiento_de_funcion admin si fi id_a).funciones_diarias si2 fi2
        = funcionEn admin.funciones_diarias si2 fi2 := by
  refine ⟨rfl, rfl, rfl, ?_⟩
  intro si2 fi2 hne
  by_cases hsi : si2 = si
  · subst hsi
    have hfi : fi2 ≠ fi := fun h => hne ⟨rfl, h⟩
    constructor <;>
    · show funcionEn (modificarFuncion admin.funciones_diarias si2 fi _) si2 fi2 = _
      unfold funcionEn modificarFuncion
      rw [modificar_getElem_self]
      cases hb : admin.funciones_diarias[si2]? with
      | none => rfl
      | some p =>
        simp only [Option.map_some']
        exact modificar_getElem_ne p.2 fi fi2 _ hfi
  · constructor <;>
    · show funcionEn (modificarFuncion admin.funciones_diarias si fi _) si2 fi2 = _
      unfold funcionEn modificarFuncion
      rw [modificar_getElem_ne _ _ _ _ hsi]

/-- Witness for C6 at a concrete input: reserving seat `A1` of the
showing at position (0, 0) leaves the templates and the showing at
position (0, 1) unchanged. -/
theorem c6_inventario_independiente_witness :
    (reservar_asiento_de_funcion adminEjemplo 0 0 "A1").teatros = adminEjemplo.teatros ∧
    (desreservar_asiento_de_funcion adminEjemplo 0 0 "A1").teatros = adminEjemplo.teatros ∧
    (Funcion.nueva 0 ⟨"", ""⟩ (Teatro.nuevo "Sala 1" DEFAULT_SEATS_PER_THEATER)).teatro_funcion
      = Teatro.nuevo "Sala 1" DEFAULT_SEATS_PER_THEATER ∧
    funcionEn (reservar_asiento_de_funcion adminEjemplo 0 0 "A1").funciones_diarias 0 1
        = funcionEn adminEjemplo.funciones_diarias 0 1 ∧
    funcionEn (desreservar_asiento_de_funcion adminEjemplo 0 0 "A1").funciones_diarias 0 1
        = funcionEn adminEjemplo.funciones_diarias 0 1 := by
  obtain ⟨h1, h2, h3, h4⟩ := c6_inventario_independiente adminEjemplo 0 0 "A1"
  obtain ⟨h5, h6⟩ := h4 0 1 (by decide)
  exact ⟨h1, h2, h3, h5, h6⟩

/-! ### Claim C9: the report counts occupied seats -/

/-- C9: the report has exactly one row per loaded Showing (it is a
permutation of the per-showing rows), each row's sold-ticket count is the
number of unavailable seats of that showing's own inventory, its revenue
is that count times the fixed unit price `PRECIO_TIQUETE`, and the
emitted list is sorted by (start timestamp, room name). -/
theorem c9_reporte_ocupados_ordenado (admin : Admin) :
    List.Sorted ordenReporte (generar_reporte_completo admin) ∧
    (generar_reporte_completo admin).Perm
      ((todasLasFunciones admin.funciones_diarias).map reporteDe) ∧
    (∀ f : Funcion, reporteDe f
      = ⟨f.fecha, f.teatro_funcion.nombre, f.pelicula.nombre,
         contarOcupados f, contarOcupados f * PRECIO_TIQUETE⟩) ∧
    (∀ r ∈ generar_reporte_completo admin,
      r.ganancias_totales = r.tiquetes_vendidos * PRECIO_TIQUETE) := by
  refine ⟨List.sorted_insertionSort _ _, List.perm_insertionSort _ _, fun f => rfl, ?_⟩
  intro r hr
  have hmem := (List.perm_insertionSort ordenReporte
    ((todasLasFunciones admin.funciones_diarias).map reporteDe)).mem_iff.mp hr
  rw [List.mem_map] at hmem
  obtain ⟨f, _, rfl⟩ := hmem
  rfl

/-- Witness for C9 at a concrete input: the freshly initialised state. -/
theorem c9_reporte_ocupados_ordenado_witness :
    List.Sorted ordenReporte (generar_reporte_completo adminEjemplo) ∧
    (generar_reporte_completo adminEjemplo).Perm
      ((todasLasFunciones adminEjemplo.funciones_diarias).map reporteDe) ∧
    (∀ f : Funcion, reporteDe f
      = ⟨f.fecha, f.teatro_funcion.nombre, f.pelicula.nombre,
         contarOcupados f, contarOcupados f * PRECIO_TIQUETE⟩) ∧
    (∀ r ∈ generar_reporte_completo adminEjemplo,
      r.ganancias_totales = r.tiquetes_vendidos * PRECIO_TIQUETE) :=
  c9_reporte_ocupados_ordenado adminEjemplo

/-! ### Lemmas about reconciliation (claim C5) -/

theorem claveDeFuncion_reservar (f : Funcion) (aid : String) :
    claveDeFuncion (reservarAsientoEnFuncion f aid) = claveDeFuncion f := rfl

theorem mapaFunciones_modificar (si : Nat) :
    ∀ (fs : List Funcion) (fi fi0 : Nat) (g : Funcion → Funcion),
      (∀ f, claveDeFuncion (g f) = claveDeFuncion f) →
      mapaFunciones si (modificar fs fi g) fi0 = mapaFunciones si fs fi0 := by
  intro fs
  induction fs with
  | nil => intro fi fi0 g _; cases fi <;> rfl
  | cons f rest ih =>
    intro fi fi0 g hg
    cases fi with
    | zero =>
      show mapaFunciones si (g f :: rest) fi0 = _
      unfold mapaFunciones
      rw [hg f]
    | succ fi =>
      show mapaFunciones si (f :: modificar rest fi g) fi0 = _
      unfold mapaFunciones
      rw [ih fi (fi0 + 1) g hg]

theorem construirMapa_modificarFuncion :
    ∀ (fd : List (String × List Funcion)) (si0 si fi : Nat) (g : Funcion → Funcion),
      (∀ f, claveDeFuncion (g f) = claveDeFuncion f) →
      construirMapa (modificarFuncion fd si fi g) si0 = construirMapa fd si0 := by
  intro fd
  induction fd with
  | nil => intro si0 si fi g _; cases si <;> rfl
  | cons p rest ih =>
    obtain ⟨s, fs⟩ := p
    intro si0 si fi g hg
    cases si with
    | zero =>
      show construirMapa ((s, modificar fs fi g) :: rest) si0 = _
      unfold construirMapa
      rw [mapaFunciones_modificar si0 fs fi 0 g hg]
    | succ si =>
      show construirMapa ((s, fs) :: modificar rest si _) si0 = _
      unfold construirMapa
      rw [show modificar rest si (fun p => (p.1, modificar p.2 fi g))
          = modificarFuncion rest si fi g from rfl]
      rw [ih (si0 + 1) si fi g hg]

theorem funcionEn_modificarFuncion_self (fd : List (String × List Funcion))
    (si fi : Nat) (g : Funcion → Funcion) :
    funcionEn (modificarFuncion fd si fi g) si fi = (funcionEn fd si fi).map g := by
  unfold funcionEn modificarFuncion
  rw [modificar_getElem_self]
  cases fd[si]? with
  | none => rfl
  | some p =>
    simp only [Option.map_some']
    exact modificar_getElem_self p.2 fi g

theorem funcionEn_modificarFuncion_ne (fd : List (String × List Funcion))
    (si fi si2 fi2 : Nat) (g : Funcion → Funcion) (h : ¬(si2 = si ∧ fi2 = fi)) :
    funcionEn (modificarFuncion fd si fi g) si2 fi2 = funcionEn fd si2 fi2 := by
  by_cases hsi : si2 = si
  · subst hsi
    have hfi : fi2 ≠ fi := fun hh => h ⟨rfl, hh⟩
    unfold funcionEn modificarFuncion
    rw [modificar_getElem_self]
    cases fd[si2]? with
    | none => rfl
    | some p =>
      simp only [Option.map_some']
      exact modificar_getElem_ne p.2 fi fi2 g hfi
  · unfold funcionEn modificarFuncion
    rw [modificar_getElem_ne _ _ _ _ hsi]

theorem obtener_reservar_self (f : Funcion) (aid : String) :
    (reservarAsientoEnFuncion f aid).obtener_asiento_por_id aid
      = (f.obtener_asiento_por_id aid).map Asiento.reservar := by
  show buscarAsiento (actualizarPrimero f.teatro_funcion.asientos aid Asiento.reservar) aid
    = (buscarAsiento f.teatro_funcion.asientos aid).map Asiento.reservar
  exact buscarAsiento_actualizarPrimero_self _ _ _ reservar_id

theorem obtener_reservar_ne (f : Funcion) (aid aid2 : String) (h : aid ≠ aid2) :
    (reservarAsientoEnFuncion f aid2).obtener_asiento_por_id aid
      = f.obtener_asiento_por_id aid := by
  show buscarAsiento (actualizarPrimero f.teatro_funcion.asientos aid2 Asiento.reservar) aid
    = buscarAsiento f.teatro_funcion.asientos aid
  exact buscarAsiento_actualizarPrimero_ne _ _ _ _ reservar_id h

theorem aplicarRegistro_forma (fd : List (String × List Funcion))
    (mapa : List ((Nat × String × String) × Nat × Nat)) (r : List String) :
    (aplicarRegistro fd mapa r).1 = fd ∨
    ∃ si fi aid, (aplicarRegistro fd mapa r).1
      = modificarFuncion fd si fi (fun f => reservarAsientoEnFuncion f aid) := by
  match r with
  | [] => left; rfl
  | [_] => left; rfl
  | [_, _] => left; rfl
  | [_, _, _] => left; rfl
  | f_str :: ns :: np :: aid :: resto =>
    cases hf : parseFecha (strip f_str) with
    | none => left; simp [aplicarRegistro, hf]
    | some fecha =>
      cases hm : buscarMapa mapa (fecha, strip ns, strip np) with
      | none => left; simp [aplicarRegistro, hf, hm]
      | some p =>
        obtain ⟨si, fi⟩ := p
        cases hfe : funcionEn fd si fi with
        | none => left; simp [aplicarRegistro, hf, hm, hfe]
        | some func =>
          cases hob : func.obtener_asiento_por_id (strip aid) with
          | none => left; simp [aplicarRegistro, hf, hm, hfe, hob]
          | some a =>
            cases hd : a.esta_disponible with
            | false => left; simp [aplicarRegistro, hf, hm, hfe, hob, hd]
            | true =>
              right
              exact ⟨si, fi, strip aid, by simp [aplicarRegistro, hf, hm, hfe, hob, hd]⟩

theorem aplicarRegistro_saturado (fd : List (String × List Funcion))
    (mapa : List ((Nat × String × String) × Nat × Nat)) (r : List String) :
    aplicarRegistro (aplicarRegistro fd mapa r).1 mapa r
      = ((aplicarRegistro fd mapa r).1, 0) := by
  match r with
  | [] => rfl
  | [_] => rfl
  | [_, _] => rfl
  | [_, _, _] => rfl
  | f_str :: ns :: np :: aid :: resto =>
    cases hf : parseFecha (strip f_str) with
    | none => simp [aplicarRegistro, hf]
    | some fecha =>
      cases hm : buscarMapa mapa (fecha, strip ns, strip np) with
      | none => simp [aplicarRegistro, hf, hm]
      | some p =>
        obtain ⟨si, fi⟩ := p
        cases hfe : funcionEn fd si fi with
        | none => simp [aplicarRegistro, hf, hm, hfe]
        | some func =>
          cases hob : func.obtener_asiento_por_id (strip aid) with
          | none => simp [aplicarRegistro, hf, hm, hfe, hob]
          | some a =>
            cases hd : a.esta_disponible with
            | false => simp [aplicarRegistro, hf, hm, hfe, hob, hd]
            | true =>
              have hstep : aplicarRegistro fd mapa (f_str :: ns :: np :: aid :: resto)
                  = (modificarFuncion fd si fi
                      (fun f => reservarAsientoEnFuncion f (strip aid)), 1) := by
                simp [aplicarRegistro, hf, hm, hfe, hob, hd]
              rw [hstep]
              have hfe2 : funcionEn (modificarFuncion fd si fi
                    (fun f => reservarAsientoEnFuncion f (strip aid))) si fi
                  = some (reservarAsientoEnFuncion func (strip aid)) := by
                rw [funcionEn_modificarFuncion_self, hfe]
                rfl
              have hob2 : (reservarAsientoEnFuncion func (strip aid)).obtener_asiento_por_id
                    (strip aid) = some a.reservar := by
                rw [obtener_reservar_self, hob]
                rfl
              simp [aplicarRegistro, hf, hm, hfe2, hob2, Asiento.esta_disponible,
                Asiento.reservar]

theorem aplicarRegistro_saturado_preservado (fd : List (String × List Funcion))
    (mapa : List ((Nat × String × String) × Nat × Nat)) (r r2 : List String)
    (hs : aplicarRegistro fd mapa r = (fd, 0)) :
    aplicarRegistro (aplicarRegistro fd mapa r2).1 mapa r
      = ((aplicarRegistro fd mapa r2).1, 0) := by
  rcases aplicarRegistro_forma fd mapa r2 with h2 | ⟨si2, fi2, aid2, h2⟩
  · rw [h2]
    exact hs
  · rw [h2]
    match r, hs with
    | [], _ => rfl
    | [_], _ => rfl
    | [_, _], _ => rfl
    | [_, _, _], _ => rfl
    | f_str :: ns :: np :: aid :: resto, hs =>
      cases hf : parseFecha (strip f_str) with
      | none => simp [aplicarRegistro, hf]
      | some fecha =>
        cases hm : buscarMapa mapa (fecha, strip ns, strip np) with
        | none => simp [aplicarRegistro, hf, hm]
        | some p =>
          obtain ⟨si, fi⟩ := p
          cases hfe : funcionEn fd si fi with
          | none =>
            have hfe2 : funcionEn (modificarFuncion fd si2 fi2
                  (fun f => reservarAsientoEnFuncion f aid2)) si fi = none := by
              by_cases hpos : si = si2 ∧ fi = fi2
              · obtain ⟨rfl, rfl⟩ := hpos
                rw [funcionEn_modificarFuncion_self, hfe]
                rfl
              · rw [funcionEn_modificarFuncion_ne _ _ _ _ _ _ hpos]
                exact hfe
            simp [aplicarRegistro, hf, hm, hfe2]
          | some func =>
            have hchar : funcionEn (modificarFuncion fd si2 fi2
                  (fun f => reservarAsientoEnFuncion f aid2)) si fi = some func ∨
                funcionEn (modificarFuncion fd si2 fi2
                  (fun f => reservarAsientoEnFuncion f aid2)) si fi
                  = some (reservarAsientoEnFuncion func aid2) := by
              by_cases hpos : si = si2 ∧ fi = fi2
              · obtain ⟨rfl, rfl⟩ := hpos
                right
                rw [funcionEn_modificarFuncion_self, hfe]
                rfl
              · left
                rw [funcionEn_modificarFuncion_ne _ _ _ _ _ _ hpos]
                exact hfe
            cases hob : func.obtener_asiento_por_id (strip aid) with
            | none =>
              rcases hchar with h3 | h3
              · simp [aplicarRegistro, hf, hm, h3, hob]
              · have hob2 : (reservarAsientoEnFuncion func aid2).obtener_asiento_por_id
                      (strip aid) = none := by
                  by_cases haid : strip aid = aid2
                  · subst haid
                    rw [obtener_reservar_self, hob]
                    rfl
                  · rw [obtener_reservar_ne _ _ _ haid]
                    exact hob
                simp [aplicarRegistro, hf, hm, h3, hob2]
            | some a =>
              cases hd : a.esta_disponible with
              | false =>
                rcases hchar with h3 | h3
                · simp [aplicarRegistro, hf, hm, h3, hob, hd]
                · by_cases haid : strip aid = aid2
                  · subst haid
                    have hob2 : (reservarAsientoEnFuncion func (strip aid)).obtener_asiento_por_id
                          (strip aid) = some a.reservar := by
                      rw [obtener_reservar_self, hob]
                      rfl
                    simp [aplicarRegistro, hf, hm, h3, hob2, Asiento.esta_disponible,
                      Asiento.reservar]
                  · have hob2 : (reservarAsientoEnFuncion func aid2).obtener_asiento_por_id
                          (strip aid) = some a := by
                      rw [obtener_reservar_ne _ _ _ haid]
                      exact hob
                    simp [aplicarRegistro, hf, hm, h3, hob2, hd]
              | true =>
                exfalso
                have hap : aplicarRegistro fd mapa (f_str :: ns :: np :: aid :: resto)
                    = (modificarFuncion fd si fi
                        (fun f => reservarAsientoEnFuncion f (strip aid)), 1) := by
                  simp [aplicarRegistro, hf, hm, hfe, hob, hd]
                rw [hs] at hap
                injection hap with h4 h5
                exact Nat.noConfusion h5

theorem fold_fst_eq (mapa : List ((Nat × String × String) × Nat × Nat))
    (rs : List (List String)) :
    ∀ (fd : List (String × List Funcion)) (n : Nat),
      (rs.foldl (fun acc record =>
        ((aplicarRegistro acc.1 mapa record).1,
         acc.2 + (aplicarRegistro acc.1 mapa record).2)) (fd, n)).1
      = rs.foldl (fun fd record => (aplicarRegistro fd mapa record).1) fd := by
  induction rs with
  | nil => intro fd n; rfl
  | cons r rest ih =>
    intro fd n
    simp only [List.foldl_cons]
    exact ih _ _

theorem fold_saturado_preservado (mapa : List ((Nat × String × String) × Nat × Nat))
    (rs : List (List String)) :
    ∀ (fd : List (String × List Funcion)) (r : List String),
      aplicarRegistro fd mapa r = (fd, 0) →
      aplicarRegistro (rs.foldl (fun fd record => (aplicarRegistro fd mapa record).1) fd)
          mapa r
        = (rs.foldl (fun fd record => (aplicarRegistro fd mapa record).1) fd, 0) := by
  induction rs with
  | nil => intro fd r h; exact h
  | cons r2 rest ih =>
    intro fd r h
    simp only [List.foldl_cons]
    exact ih _ r (aplicarRegistro_saturado_preservado fd mapa r r2 h)

theorem fold_todos_saturados (mapa : List ((Nat × String × String) × Nat × Nat))
    (rs : List (List String)) :
    ∀ (fd : List (String × List Funcion)) (r : List String), r ∈ rs →
      aplicarRegistro (rs.foldl (fun fd record => (aplicarRegistro fd mapa record).1) fd)
          mapa r
        = (rs.foldl (fun fd record => (aplicarRegistro fd mapa record).1) fd, 0) := by
  induction rs with
  | nil => intro fd r h; simp at h
  | cons r0 rest ih =>
    intro fd r h
    simp only [List.foldl_cons]
    rcases List.mem_cons.mp h with rfl | h2
    · exact fold_saturado_preservado mapa rest _ r (aplicarRegistro_saturado fd mapa r)
    · exact ih _ r h2

theorem fold_noop_de_saturados (mapa : List ((Nat × String × String) × Nat × Nat))
    (rs : List (List String)) :
    ∀ (fd : List (String × List Funcion)),
      (∀ r ∈ rs, aplicarRegistro fd mapa r = (fd, 0)) →
      rs.foldl (fun fd record => (aplicarRegistro fd mapa record).1) fd = fd := by
  induction rs with
  | nil => intro fd _; rfl
  | cons r0 rest ih =>
    intro fd h
    simp only [List.foldl_cons]
    rw [h r0 (List.mem_cons_self _ _)]
    exact ih fd fun r h2 => h r (List.mem_cons_of_mem _ h2)

theorem construirMapa_fold (mapa : List ((Nat × String × String) × Nat × Nat))
    (rs : List (List String)) :
    ∀ (fd : List (String × List Funcion)),
      construirMapa (rs.foldl (fun fd record => (aplicarRegistro fd mapa record).1) fd) 0
        = construirMapa fd 0 := by
  induction rs with
  | nil => intro fd; rfl
  | cons r rest ih =>
    intro fd
    simp only [List.foldl_cons]
    rw [ih]
    rcases aplicarRegistro_forma fd mapa r with h | ⟨si, fi, aid, h⟩
    · rw [h]
    · rw [h]
      exact construirMapa_modificarFuncion fd 0 si fi _ fun f => rfl

/-! ### Claim C5: reconciliation is idempotent -/

/-- C5: replaying the same reservation log a second time over the state
produced by a first replay changes no seat's availability: every record
either still fails to resolve (shape and composite keys are unchanged by
reconciliation) or now finds its seat already unavailable, and is
skipped, so the second pass returns the state of the first pass
unchanged. -/
theorem c5_reconciliacion_idempotente (fd : List (String × List Funcion))
    (reservas : List (List String)) :
    (_cargar_y_aplicar_reservas (_cargar_y_aplicar_reservas fd reservas).1 reservas).1
      = (_cargar_y_aplicar_reservas fd reservas).1 := by
  have hfst : ∀ (g : List (String × List Funcion)),
      (_cargar_y_aplicar_reservas g reservas).1
      = reservas.foldl
          (fun fd record => (aplicarRegistro fd (construirMapa g 0) record).1) g := by
    intro g
    unfold _cargar_y_aplicar_reservas
    exact fold_fst_eq (construirMapa g 0) reservas g 0
  rw [hfst fd, hfst
    (reservas.foldl (fun fd2 record => (aplicarRegistro fd2 (construirMapa fd 0) record).1) fd)]
  rw [construirMapa_fold (construirMapa fd 0) reservas fd]
  exact fold_noop_de_saturados (construirMapa fd 0) reservas _
    fun r hr => fold_todos_saturados (construirMapa fd 0) reservas fd r hr

end Cine
